import Mathlib

/-!
# Verification of the QuantFinance signal-analytics core

Shallow embedding of the signal-analytics pipeline of the QuantFinance
repository (`quantfinance/analysis/levels.py`, `fibonacci.py`,
`divergence.py`, `trend.py`, `quantfinance/reporting/insights.py`,
`quantfinance/setups/engine.py`) and proofs about it.

Modelling conventions:
* Prices, weights and indicator values are rationals (`ℚ`); the Python
  floats become exact rational arithmetic.  The float literal `1e-6`
  becomes `1/1000000`.
* Dates are naturals (days since an epoch); the pandas weekly resampling
  rule `"W"` (weeks ending on Sunday) groups day `d` under key
  `(d + 3) / 7` (day 3 of the epoch used here is a Sunday).
* `scipy.signal.argrelextrema` is embedded with its default `mode="clip"`:
  out-of-range neighbours are clamped to the first/last index.
* Python's `sorted` (a stable sort) is embedded as `List.insertionSort`,
  which is also stable, hence extensionally identical on every input.
* Fallible operations (`raise`, `.iloc` out of bounds, `float(str)`)
  return `Except String` / `Option` values.
-/

namespace QuantFinance

/-! ## Generic list helpers (numpy/pandas primitives) -/

/-- Sum of a list of rationals. -/
def listSum (l : List ℚ) : ℚ := l.sum

/-- Minimum of a list of rationals (`0` as the junk value on `[]`;
all uses are guarded by non-emptiness). -/
def listMinD : List ℚ → ℚ
  | [] => 0
  | x :: xs => xs.foldl min x

/-- Maximum of a list of rationals (junk value `0` on `[]`). -/
def listMaxD : List ℚ → ℚ
  | [] => 0
  | x :: xs => xs.foldl max x

/-- Positional access into a value series (all uses are in bounds). -/
def vget (v : List ℚ) (i : ℕ) : ℚ := v.getD i 0

/-- Positional access into a date index (all uses are in bounds). -/
def dget (dates : List ℕ) (i : ℕ) : ℕ := dates.getD i 0

/-- Maximum of a list of naturals, `0` on `[]`. -/
def list_max_nat (l : List ℕ) : ℕ := l.foldl Nat.max 0

/-- `np.less_equal` as a boolean comparator. -/
def le_q (a b : ℚ) : Bool := decide (a ≤ b)

/-- `np.greater_equal` as a boolean comparator. -/
def ge_q (a b : ℚ) : Bool := decide (a ≥ b)

/-- One comparison step of `scipy.signal._boolrelextrema` at index `i`
with shift `s + 1`, clip mode: the left neighbour index `i - (s+1)`
clamps at `0` (natural subtraction), the right one at `length - 1`. -/
def relextrema_step (v : List ℚ) (cmp : ℚ → ℚ → Bool) (i s : ℕ) : Bool :=
  cmp (vget v i) (vget v (min (i + s + 1) (v.length - 1))) &&
  cmp (vget v i) (vget v (i - (s + 1)))

/-- Index `i` survives every shift `1 .. order` of `argrelextrema`. -/
def is_extremum (v : List ℚ) (cmp : ℚ → ℚ → Bool) (order i : ℕ) : Bool :=
  (List.range order).all (relextrema_step v cmp i)

/-- `scipy.signal.argrelextrema(v, cmp, order=order)[0]` (mode `"clip"`):
the ascending list of positions satisfying all neighbourhood comparisons. -/
def argrelextrema (v : List ℚ) (cmp : ℚ → ℚ → Bool) (order : ℕ) : List ℕ :=
  (List.range v.length).filter (is_extremum v cmp order)

/-- First position of the maximum (`np.nanargmax` on a NaN-free series). -/
def argmax_idx (v : List ℚ) : ℕ :=
  (List.range v.length).foldl (fun best i => if vget v i > vget v best then i else best) 0

/-- First position of the minimum (`np.nanargmin` on a NaN-free series). -/
def argmin_idx (v : List ℚ) : ℕ :=
  (List.range v.length).foldl (fun best i => if vget v i < vget v best then i else best) 0

/-! ## `quantfinance/analysis/levels.py` -/

/-- `LevelDetail` (levels.py lines 13-36).  The extra `contribs` field is
ghost instrumentation: it records the `(value, weight)` of every candidate
contribution merged into the detail (creation included) and influences no
computation. -/
structure LevelDetail where
  value : ℚ
  weight : ℚ
  count : ℕ
  tags : List String
  contribs : List (ℚ × ℚ)
deriving DecidableEq, Repr

instance : Inhabited LevelDetail := ⟨⟨0, 0, 0, [], []⟩⟩

/-- `LevelDetail.merge` (levels.py lines 22-31). -/
def LevelDetail.merge (d : LevelDetail) (other_value increment : ℚ) (tag : String) :
    LevelDetail :=
  let total_weight := d.weight + increment
  { value := if total_weight = 0 then other_value
             else (d.value * d.weight + other_value * increment) / total_weight
    weight := total_weight
    count := d.count + 1
    tags := if tag ∈ d.tags then d.tags else d.tags ++ [tag]
    contribs := d.contribs ++ [(other_value, increment)] }

/-- `LevelDetail.add_tag` (levels.py lines 33-36). -/
def LevelDetail.add_tag (d : LevelDetail) (tag : String) (increment : ℚ) : LevelDetail :=
  { d with tags := if tag ∈ d.tags then d.tags else d.tags ++ [tag]
           weight := d.weight + increment }

/-- Sum of the weights of the ghost-recorded contributions of a detail. -/
def contrib_weight (d : LevelDetail) : ℚ := listSum (d.contribs.map (·.2))

/-- Weighted sum (value times weight) of the ghost-recorded contributions. -/
def contrib_wsum (d : LevelDetail) : ℚ := listSum (d.contribs.map (fun c => c.1 * c.2))

/-- `reference = detail.value or value` (levels.py line 111): Python `or`
falls back to the candidate value when `detail.value` is falsy (`0.0`). -/
def scan_reference (d : LevelDetail) (value : ℚ) : ℚ :=
  if d.value = 0 then value else d.value

/-- The scan of `_add_candidate` (levels.py lines 110-119): first detail
within tolerance absorbs the candidate; a detail whose reference is zero is
skipped (`continue`); if no detail matches, a fresh detail is appended. -/
def add_scan (value weight : ℚ) (tag : String) (tolerance_pct : ℚ) :
    List LevelDetail → List LevelDetail
  | [] => [⟨value, weight, 1, [tag], [(value, weight)]⟩]
  | d :: rest =>
      if scan_reference d value = 0 then d :: add_scan value weight tag tolerance_pct rest
      else if |d.value - value| / |scan_reference d value| * 100 ≤ tolerance_pct then
        d.merge value weight tag :: rest
      else d :: add_scan value weight tag tolerance_pct rest

/-- `_add_candidate` (levels.py lines 96-119).  `value is None` and
`np.isfinite` have no counterpart for exact rationals; the `value <= 0`
discard is kept. -/
def _add_candidate (candidates : List LevelDetail) (value weight : ℚ) (tag : String)
    (tolerance_pct : ℚ) : List LevelDetail :=
  if value ≤ 0 then candidates else add_scan value weight tag tolerance_pct candidates

/-- Folding `_add_candidate` over a list of candidate values
(the `for value in ...` loops of `consolidate_levels`). -/
def add_candidates (candidates : List LevelDetail) (values : List ℚ) (weight : ℚ)
    (tag : String) (tolerance_pct : ℚ) : List LevelDetail :=
  values.foldl (fun acc v => _add_candidate acc v weight tag tolerance_pct) candidates

/-- Ordering of details by `value` (the key of `_finalize_candidates`). -/
def detail_le (a b : LevelDetail) : Prop := a.value ≤ b.value

instance : DecidableRel detail_le := fun a b => inferInstanceAs (Decidable (a.value ≤ b.value))

instance : IsTotal LevelDetail detail_le := ⟨fun a b => le_total a.value b.value⟩

instance : IsTrans LevelDetail detail_le := ⟨fun _ _ _ h1 h2 => le_trans h1 h2⟩

/-- `_finalize_candidates` (levels.py lines 122-123): stable ascending sort
by `value` (Python `sorted` is stable; so is insertion sort). -/
def _finalize_candidates (candidates : List LevelDetail) : List LevelDetail :=
  List.insertionSort detail_le candidates

/-- One row of the level DataFrame: date index plus `Close`, `High`, `Low`.
Callers that have no `High`/`Low` columns pass the close for all three
(`df.get("High", close_series)`). -/
structure LevelRow where
  date : ℕ
  close : ℚ
  high : ℚ
  low : ℚ
deriving DecidableEq, Repr

/-- Ordering of rows by date (the key of `df.sort_index()`). -/
def row_le (a b : LevelRow) : Prop := a.date ≤ b.date

instance : DecidableRel row_le := fun a b => inferInstanceAs (Decidable (a.date ≤ b.date))

instance : IsTotal LevelRow row_le := ⟨fun a b => Nat.le_total a.date b.date⟩

instance : IsTrans LevelRow row_le := ⟨fun _ _ _ h1 h2 => Nat.le_trans h1 h2⟩

/-- `df.sort_index()` (stable). -/
def sort_rows (rows : List LevelRow) : List LevelRow := List.insertionSort row_le rows

/-- `_detect_supports` (levels.py lines 58-63): drop missing values, demand
`2*order+1` samples, return the values at the `argrelextrema` positions. -/
def _detect_supports (series : List (Option ℚ)) (order : ℕ) : List ℚ :=
  let s := series.filterMap id
  if s.length < order * 2 + 1 then []
  else (argrelextrema s le_q order).map (vget s)

/-- `_detect_resistances` (levels.py lines 66-71). -/
def _detect_resistances (series : List (Option ℚ)) (order : ℕ) : List ℚ :=
  let s := series.filterMap id
  if s.length < order * 2 + 1 then []
  else (argrelextrema s ge_q order).map (vget s)

/-- `detect_round_numbers` (levels.py lines 74-77): evenly spaced steps
around the floor-divided mean. -/
def detect_round_numbers (series : List ℚ) (step : ℚ) (width : ℕ) : List ℚ :=
  let center := listSum series / series.length
  let start := ((⌊center / step⌋ : ℚ) - width) * step
  (List.range (2 * width + 1)).map (fun i => start + i * step)

/-- Pandas weekly bin key for rule `"W"` (week ending Sunday). -/
def week_key (d : ℕ) : ℕ := (d + 3) / 7

/-- The values of a dated series falling into week `k`. -/
def week_group (rows : List (ℕ × ℚ)) (k : ℕ) : List ℚ :=
  (rows.filter (fun r => week_key r.1 == k)).map (·.2)

/-- `series.resample("W").agg(...)`: one bin per week from the first to the
last date (`none` = empty bin / NaN).  Assumes `rows` sorted by date. -/
def resample_week (rows : List (ℕ × ℚ)) (agg : List ℚ → ℚ) : List (Option ℚ) :=
  match rows with
  | [] => []
  | r0 :: _ =>
      let k0 := week_key r0.1
      let k1 := week_key (rows.getLastD r0).1
      (List.range (k1 + 1 - k0)).map (fun j =>
        let vs := week_group rows (k0 + j)
        if vs.isEmpty then none else some (agg vs))

/-- `.rolling(window=52, min_periods=1).min().iloc[-1]`: minimum of the
non-empty bins among the last 52 weekly bins. -/
def rolling52_min (bins : List (Option ℚ)) : ℚ :=
  listMinD ((bins.drop (bins.length - 52)).filterMap id)

/-- Symmetric rolling 52-bin maximum. -/
def rolling52_max (bins : List (Option ℚ)) : ℚ :=
  listMaxD ((bins.drop (bins.length - 52)).filterMap id)

/-- Result record of `compute_special_levels` (levels.py lines 80-93). -/
structure SpecialLevels where
  hist_min : ℚ
  hist_max : ℚ
  roll_min : ℚ
  roll_max : ℚ
deriving DecidableEq, Repr

/-- `compute_special_levels` (levels.py lines 80-93) on a sorted frame. -/
def compute_special_levels (df : List LevelRow) : SpecialLevels :=
  { hist_min := listMinD (df.map (·.low))
    hist_max := listMaxD (df.map (·.high))
    roll_min := rolling52_min (resample_week (df.map (fun r => (r.date, r.low))) listMinD)
    roll_max := rolling52_max (resample_week (df.map (fun r => (r.date, r.high))) listMaxD) }

/-- Tolerance for one swing scale:
`grouping_tolerance_pct * max(1.0, swing_order / 5)` (levels.py line 154). -/
def swing_tol (g : ℚ) (order : ℕ) : ℚ := g * max 1 ((order : ℚ) / 5)

/-- The three daily swing passes over the support pool
(levels.py lines 147-162): orders 2, 5, 10 with weights 1, 1.5, 2. -/
def swing_support_details (df : List LevelRow) (g : ℚ) : List LevelDetail :=
  let low_series := df.map (fun r => some r.low)
  let s1 := add_candidates [] (_detect_supports low_series 2) 1 "swing_curto" (swing_tol g 2)
  let s2 := add_candidates s1 (_detect_supports low_series 5) (3/2) "swing_medio" (swing_tol g 5)
  add_candidates s2 (_detect_supports low_series 10) 2 "swing_longo" (swing_tol g 10)

/-- The three daily swing passes over the resistance pool
(levels.py lines 147-170). -/
def swing_resistance_details (df : List LevelRow) (g : ℚ) : List LevelDetail :=
  let high_series := df.map (fun r => some r.high)
  let r1 := add_candidates [] (_detect_resistances high_series 2) 1 "swing_curto" (swing_tol g 2)
  let r2 := add_candidates r1 (_detect_resistances high_series 5) (3/2) "swing_medio" (swing_tol g 5)
  add_candidates r2 (_detect_resistances high_series 10) 2 "swing_longo" (swing_tol g 10)

/-- Support pool after the weekly swings, round numbers and special levels
(levels.py lines 172-229). -/
def full_support_pool (df : List LevelRow) (round_numbers : List ℚ)
    (special : SpecialLevels) (g : ℚ) : List LevelDetail :=
  let low_weekly := resample_week (df.map (fun r => (r.date, r.low))) listMinD
  let s1 := add_candidates (swing_support_details df g)
      (_detect_supports low_weekly 2) (7/2) "swing_semanal" (g * 2)
  let s2 := add_candidates s1 round_numbers (3/10) "numero_redondo" (g * 2)
  let s3 := _add_candidate s2 special.roll_min 3 "minimo_52s" g
  _add_candidate s3 special.hist_min 4 "minimo_historico" g

/-- Resistance pool after the weekly swings, round numbers and special
levels (levels.py lines 172-236). -/
def full_resistance_pool (df : List LevelRow) (round_numbers : List ℚ)
    (special : SpecialLevels) (g : ℚ) : List LevelDetail :=
  let high_weekly := resample_week (df.map (fun r => (r.date, r.high))) listMaxD
  let r1 := add_candidates (swing_resistance_details df g)
      (_detect_resistances high_weekly 2) (7/2) "swing_semanal" (g * 2)
  let r2 := add_candidates r1 round_numbers (3/10) "numero_redondo" (g * 2)
  let r3 := _add_candidate r2 special.roll_max 3 "maximo_52s" g
  _add_candidate r3 special.hist_max 4 "maximo_historico" g

/-- The reclassification loop (levels.py lines 240-246): every resistance
detail tagged `swing_semanal` with value below the latest close is given
the `topo_rompido` tag (with weight increment 2.0) and moved to the
support pool; the rest stay resistances. -/
def migrate_pools (supports resistances : List LevelDetail) (latest_price : ℚ) :
    List LevelDetail × List LevelDetail :=
  resistances.foldl
    (fun st d =>
      if "swing_semanal" ∈ d.tags ∧ d.value < latest_price then
        (st.1 ++ [d.add_tag "topo_rompido" 2], st.2)
      else (st.1, st.2 ++ [d]))
    (supports, [])

/-- `PriceLevels` (levels.py lines 39-51). -/
structure PriceLevels where
  supports : List ℚ
  resistances : List ℚ
  round_numbers : List ℚ
  historical_min : ℚ
  historical_max : ℚ
  rolling_min_52w : ℚ
  rolling_max_52w : ℚ
  support_details : List LevelDetail
  resistance_details : List LevelDetail
deriving DecidableEq, Repr

instance : Inhabited PriceLevels := ⟨⟨[], [], [], 0, 0, 0, 0, [], []⟩⟩

/-- Body of `consolidate_levels` after the frame is known non-empty. -/
def consolidate_core (df : List LevelRow) (last_row : LevelRow) (round_step : ℚ)
    (round_width : ℕ) (g : ℚ) : PriceLevels :=
  let round_numbers := detect_round_numbers (df.map (·.close)) round_step round_width
  let special := compute_special_levels df
  let pools := migrate_pools (full_support_pool df round_numbers special g)
      (full_resistance_pool df round_numbers special g) last_row.close
  let support_details := _finalize_candidates pools.1
  let resistance_details := _finalize_candidates pools.2
  { supports := support_details.map (·.value)
    resistances := resistance_details.map (·.value)
    round_numbers := round_numbers
    historical_min := special.hist_min
    historical_max := special.hist_max
    rolling_min_52w := special.roll_min
    rolling_max_52w := special.roll_max
    support_details := support_details
    resistance_details := resistance_details }

/-- `consolidate_levels` (levels.py lines 126-264) with `column="Close"`.
`none` models the `IndexError` of `close_series.iloc[-1]` on an empty
frame (an input the function does not accept). -/
def consolidate_levels (rows : List LevelRow) (round_step : ℚ) (round_width : ℕ)
    (grouping_tolerance_pct : ℚ) : Option PriceLevels :=
  match (sort_rows rows).getLast? with
  | none => none
  | some last_row => some (consolidate_core (sort_rows rows) last_row round_step round_width
      grouping_tolerance_pct)

/-- `group_levels` (levels.py lines 267-277). -/
def group_levels (levels : List ℚ) (tolerance_pct : ℚ) : List ℚ :=
  ((_finalize_candidates (add_candidates [] levels 1 "generico" tolerance_pct)).map (·.value))

/-! ## `quantfinance/analysis/fibonacci.py` -/

/-- `FibonacciLevels` (fibonacci.py lines 13-21); the ratio-label map is an
association list (the Python dict has distinct keys). -/
structure FibonacciLevels where
  levels : List (String × ℚ)
  base_high : ℚ
  base_low : ℚ
  high_date : ℕ
  low_date : ℕ
deriving DecidableEq, Repr

/-- `_positions` (fibonacci.py lines 28-31): guarded `argrelextrema`
positions, as an ascending list of distinct naturals. -/
def _positions (series : List ℚ) (order : ℕ) (cmp : ℚ → ℚ → Bool) : List ℕ :=
  if series.length < order * 2 + 1 then [] else argrelextrema series cmp order

/-- Union of two position sets.  CPython iterates small-int sets in
ascending order, but only membership and the largest element are consumed
downstream, so list concatenation with deduplication is adequate. -/
def set_union (a b : List ℕ) : List ℕ := a ++ b.filter (· ∉ a)

/-- Result of `_find_recent_swing`:
`(base_high, base_low, high_date, low_date)`. -/
def Swing := ℚ × ℚ × ℕ × ℕ

/-- The merged position set of the high pivots (orders 3 and 8). -/
def high_swing_positions (v : List ℚ) : List ℕ :=
  set_union (_positions v 3 ge_q) (_positions v 8 ge_q)

/-- The merged position set of the low pivots (orders 3 and 8). -/
def low_swing_positions (v : List ℚ) : List ℕ :=
  set_union (_positions v 3 le_q) (_positions v 8 le_q)

/-- The overall last extremum position: `extremes[-1]` of the source is
the entry at the largest position of either kind. -/
def swing_last_pos (hp lp : List ℕ) : ℕ := Nat.max (list_max_nat hp) (list_max_nat lp)

/-- The `(high_pos, low_pos)` assignment of fibonacci.py lines 70-85.  The
`extremes` list is sorted ascending by position by a stable sort after all
"max" entries were appended before all "min" entries, so `extremes[-1]`
has kind "min" exactly when the last position is a low position, and the
reversed scan of `extremes[:-1]` for the opposite kind finds the largest
position of that kind — which exists whenever both position sets are
non-empty, making the `opposite_pos is None` fallback of lines 78-80
unreachable in this branch. -/
def swing_pair (hp lp : List ℕ) : ℕ × ℕ :=
  if (swing_last_pos hp lp ∈ lp : Bool) then (list_max_nat hp, swing_last_pos hp lp)
  else (swing_last_pos hp lp, list_max_nat lp)

/-- The position swap of fibonacci.py lines 87-88:
`if high_pos < low_pos: high_pos, low_pos = low_pos, high_pos`. -/
def swing_positions (hp lp : List ℕ) : ℕ × ℕ :=
  if (swing_pair hp lp).1 < (swing_pair hp lp).2 then
    ((swing_pair hp lp).2, (swing_pair hp lp).1)
  else swing_pair hp lp

/-- `_find_recent_swing` (fibonacci.py lines 34-95).  `none` models the
`ValueError` on an empty frame. -/
def _find_recent_swing (high_vals low_vals : List ℚ) (dates : List ℕ) : Option Swing :=
  if high_vals.isEmpty then none
  else if (high_swing_positions high_vals).isEmpty ||
      (low_swing_positions low_vals).isEmpty then
    some (vget high_vals (argmax_idx high_vals), vget low_vals (argmin_idx low_vals),
      dget dates (argmax_idx high_vals), dget dates (argmin_idx low_vals))
  else
    some (vget high_vals
        (swing_positions (high_swing_positions high_vals) (low_swing_positions low_vals)).1,
      vget low_vals
        (swing_positions (high_swing_positions high_vals) (low_swing_positions low_vals)).2,
      dget dates
        (swing_positions (high_swing_positions high_vals) (low_swing_positions low_vals)).1,
      dget dates
        (swing_positions (high_swing_positions high_vals) (low_swing_positions low_vals)).2)

/-- Retracement ratio labels and values
(`DEFAULT_RETRACEMENT_RATIOS`, label `f"Ret_{int(ratio * 100)}"`;
`int(0.236 * 100)` is `23` in float arithmetic, and so on). -/
def retracement_table : List (String × ℚ) :=
  [("Ret_0", 0), ("Ret_23", 236/1000), ("Ret_38", 382/1000), ("Ret_50", 1/2),
   ("Ret_61", 618/1000), ("Ret_78", 786/1000), ("Ret_100", 1)]

/-- Extension ratio labels and values (`DEFAULT_EXTENSION_RATIOS`). -/
def extension_table : List (String × ℚ) :=
  [("Ext_127", 1272/1000), ("Ext_161", 1618/1000), ("Ext_200", 2)]

/-- The lookback window `data.tail(lookback)` (fibonacci.py lines 108-109);
`lookback = 0` models a falsy lookback (no windowing). -/
def fib_window (rows : List LevelRow) (lookback : ℕ) : List LevelRow :=
  if 0 < lookback then rows.drop (rows.length - lookback) else rows

/-- `compute_retracements` (fibonacci.py lines 98-132) with
`column="Close"`; rows carry `Close`, `High`, `Low` (equal to `Close` when
the frame has no `High`/`Low` columns). -/
def compute_retracements (rows : List LevelRow) (lookback : ℕ) : Option FibonacciLevels :=
  let data := fib_window rows lookback
  match _find_recent_swing (data.map (·.high)) (data.map (·.low)) (data.map (·.date)) with
  | none => none
  | some (base_high, base_low, high_date, low_date) =>
      let diff := if base_high ≠ base_low then base_high - base_low else 1/1000000
      some
        { levels :=
            retracement_table.map (fun rt => (rt.1, base_high - diff * rt.2)) ++
            extension_table.map (fun et => (et.1, base_high + diff * (et.2 - 1)))
          base_high := base_high
          base_low := base_low
          high_date := high_date
          low_date := low_date }

/-! ## `quantfinance/analysis/divergence.py` -/

/-- `DivergenceSignal` (divergence.py lines 13-21). -/
structure DivergenceSignal where
  kind : String
  price_index : ℕ
  price_level : ℚ
  indicator_level : ℚ
  indicator : String
deriving DecidableEq, Repr

/-- `_extrema` (divergence.py lines 24-25): `argrelextrema` without any
length guard (clip mode handles short series). -/
def _extrema (series : List ℚ) (cmp : ℚ → ℚ → Bool) (order : ℕ) : List ℕ :=
  argrelextrema series cmp order

/-- `zip(xs[:-1], xs[1:])`: the list of consecutive pairs. -/
def consecutive_pairs : List ℕ → List (ℕ × ℕ)
  | a :: b :: rest => (a, b) :: consecutive_pairs (b :: rest)
  | _ => []

/-- The bullish loop shared by the three detectors: consecutive price lows
at least `min_distance` apart where price makes a lower low and the
indicator a higher low. -/
def low_pair_signals (prices : List ℚ) (dates : List ℕ) (indicator_series : List ℚ)
    (min_distance : ℕ) (name : String) (lows : List ℕ) : List DivergenceSignal :=
  (consecutive_pairs lows).filterMap (fun p =>
    if p.2 - p.1 < min_distance then none
    else
      let price1 := vget prices p.1
      let price2 := vget prices p.2
      let ind1 := vget indicator_series p.1
      let ind2 := vget indicator_series p.2
      if price2 < price1 ∧ ind2 > ind1 then
        some ⟨"bullish", dget dates p.2, price2, ind2, name⟩
      else none)

/-- The bearish loop shared by the three detectors: consecutive price highs
where price makes a higher high and the indicator a lower high. -/
def high_pair_signals (prices : List ℚ) (dates : List ℕ) (indicator_series : List ℚ)
    (min_distance : ℕ) (name : String) (highs : List ℕ) : List DivergenceSignal :=
  (consecutive_pairs highs).filterMap (fun p =>
    if p.2 - p.1 < min_distance then none
    else
      let price1 := vget prices p.1
      let price2 := vget prices p.2
      let ind1 := vget indicator_series p.1
      let ind2 := vget indicator_series p.2
      if price2 > price1 ∧ ind2 < ind1 then
        some ⟨"bearish", dget dates p.2, price2, ind2, name⟩
      else none)

/-- `detect_rsi_divergences` (divergence.py lines 28-76): the bullish list
followed by the bearish list (`return bullish + bearish`). -/
def detect_rsi_divergences (prices : List ℚ) (dates : List ℕ) (rsi : List ℚ)
    (order min_distance : ℕ) : List DivergenceSignal :=
  low_pair_signals prices dates rsi min_distance "RSI" (_extrema prices le_q order) ++
  high_pair_signals prices dates rsi min_distance "RSI" (_extrema prices ge_q order)

/-- `detect_obv_divergences` (divergence.py lines 79-125): identical
structure, one `signals` list appended bullish-first. -/
def detect_obv_divergences (prices : List ℚ) (dates : List ℕ) (obv : List ℚ)
    (order min_distance : ℕ) : List DivergenceSignal :=
  low_pair_signals prices dates obv min_distance "OBV" (_extrema prices le_q order) ++
  high_pair_signals prices dates obv min_distance "OBV" (_extrema prices ge_q order)

/-- `detect_macd_histogram_divergences` (divergence.py lines 128-174). -/
def detect_macd_histogram_divergences (prices : List ℚ) (dates : List ℕ)
    (histogram : List ℚ) (order min_distance : ℕ) : List DivergenceSignal :=
  low_pair_signals prices dates histogram min_distance "MACD" (_extrema prices le_q order) ++
  high_pair_signals prices dates histogram min_distance "MACD" (_extrema prices ge_q order)

/-- The divergence assembly of `build_market_snapshot`
(insights.py lines 179-183) with the `OBV` and `Histogram` columns
present: per-indicator lists concatenated with default
`order=5, min_distance=5`. -/
def snapshot_divergences (close : List ℚ) (dates : List ℕ) (rsi obv histogram : List ℚ) :
    List DivergenceSignal :=
  detect_rsi_divergences close dates rsi 5 5 ++
  detect_obv_divergences close dates obv 5 5 ++
  detect_macd_histogram_divergences close dates histogram 5 5

/-! ## `quantfinance/analysis/trend.py` (breakout detection) -/

/-- `BreakoutSignal` (trend.py lines 25-32). -/
structure BreakoutSignal where
  kind : String
  price : ℚ
  reference_level : ℚ
  timestamp : ℕ
deriving DecidableEq, Repr

/-- The four-key dict returned by `breakout_signals`
(trend.py lines 146-151). -/
structure BreakoutMap where
  breakout_up : Option BreakoutSignal
  false_breakout_up : Option BreakoutSignal
  breakout_down : Option BreakoutSignal
  false_breakout_down : Option BreakoutSignal
deriving DecidableEq, Repr

/-- `_nearest` (trend.py lines 122-125): Python `min(levels, key=...)`
keeps the first element among ties, so a later level replaces the current
best only when strictly closer. -/
def _nearest (levels : List ℚ) (latest_price : ℚ) : Option ℚ :=
  match levels with
  | [] => none
  | x :: xs => some (xs.foldl
      (fun best lvl => if |lvl - latest_price| < |best - latest_price| then lvl else best) x)

/-- Python truthiness of `nearest_support` / `nearest_resistance`:
`None` and `0.0` are falsy. -/
def truthy (o : Option ℚ) : Bool :=
  match o with
  | none => false
  | some q => decide (q ≠ 0)

/-- `price.iloc[-2]`: raises `IndexError` when the series has fewer than
two rows. -/
def iloc_m2 (prices : List ℚ) : Except String ℚ :=
  if 2 ≤ prices.length then .ok (vget prices (prices.length - 2))
  else .error "single positional indexer is out-of-bounds"

/-- One false-breakout branch of `breakout_signals`: the guard condition
short-circuits, so `price.iloc[-2]` is consulted (and can raise) only when
the guard holds. -/
def false_breakout_check (prices : List ℚ) (cond : Prop) [Decidable cond]
    (mk : ℚ → Option BreakoutSignal) : Except String (Option BreakoutSignal) :=
  if cond then do
    let prev ← iloc_m2 prices
    pure (mk prev)
  else pure none

/-- `breakout_signals` (trend.py lines 112-151).  The two false-breakout
branches evaluate `price.iloc[-2]` only when their guard conditions hold
(Python short-circuit `and`), which is where the function can raise. -/
def breakout_signals (prices : List ℚ) (dates : List ℕ)
    (support_levels resistance_levels : List ℚ) (tolerance_pct : ℚ) :
    Except String BreakoutMap :=
  match prices.getLast? with
  | none => .error "single positional indexer is out-of-bounds"
  | some latest_price =>
      let timestamp := dates.getLastD 0
      let nearest_support := _nearest support_levels latest_price
      let nearest_resistance := _nearest resistance_levels latest_price
      let nr := nearest_resistance.getD 0
      let ns := nearest_support.getD 0
      do
        let breakout_up :=
          if truthy nearest_resistance ∧ latest_price > nr * (1 + tolerance_pct / 100) then
            some ⟨"breakout_up", latest_price, nr, timestamp⟩
          else none
        let fake_breakout_up ←
          false_breakout_check prices (truthy nearest_resistance ∧ latest_price < nr)
            (fun prev => if prev > nr then
              some (⟨"false_breakout_up", latest_price, nr, timestamp⟩ : BreakoutSignal)
            else none)
        let breakout_down :=
          if truthy nearest_support ∧ latest_price < ns * (1 - tolerance_pct / 100) then
            some ⟨"breakout_down", latest_price, ns, timestamp⟩
          else none
        let fake_breakout_down ←
          false_breakout_check prices (truthy nearest_support ∧ latest_price > ns)
            (fun prev => if prev < ns then
              some (⟨"false_breakout_down", latest_price, ns, timestamp⟩ : BreakoutSignal)
            else none)
        pure ⟨breakout_up, fake_breakout_up, breakout_down, fake_breakout_down⟩

/-! ## `quantfinance/reporting/insights.py` (input validation) -/

/-- A raw input frame as seen by `_validate_input`: its column names and
its `Date` column after `pd.to_datetime(..., errors="coerce")` —
`none` is `NaT` (an unparseable date). -/
structure RawFrame where
  columns : List String
  dates : List (Option ℕ)
deriving DecidableEq, Repr

/-- `REQUIRED_COLUMNS` (insights.py line 93); the Python set is listed
in a fixed canonical order. -/
def REQUIRED_COLUMNS : List String := ["Date", "Open", "High", "Low", "Close", "Volume"]

/-- `_validate_input` (insights.py lines 96-103): error on missing
required columns, otherwise coerce dates, silently drop the rows whose
date is `NaT` and sort the survivors by date (stably).  Returns the
resulting `Date` index. -/
def _validate_input (df : RawFrame) : Except String (List ℕ) :=
  let missing := REQUIRED_COLUMNS.filter (fun c => c ∉ df.columns)
  if missing.isEmpty then
    .ok (List.insertionSort (· ≤ ·) (df.dates.filterMap id))
  else
    .error ("DataFrame sem as colunas obrigatórias: " ++ String.intercalate ", " missing)

/-! ## `quantfinance/setups/engine.py` -/

/-- One cell of an indicator column: missing (`NaN`), numeric, or a
non-numeric string (on which `float`/`astype(float)` raises). -/
inductive Cell where
  | na : Cell
  | num : ℚ → Cell
  | txt : String → Cell
deriving DecidableEq, Repr

/-- A DataFrame as consumed by the setup engine: named columns of cells. -/
def EngineFrame := List (String × List Cell)

/-- Column lookup (`column in df.columns` / `df[column]`). -/
def df_column (df : EngineFrame) (name : String) : Option (List Cell) :=
  df.lookup name

/-- `TrendSnapshot` (analysis/trend.py lines 14-22). -/
structure TrendSnapshot where
  direction : String
  slope_short : ℚ
  slope_medium : ℚ
  slope_long : ℚ
  crossover : String
deriving DecidableEq, Repr

/-- The fields of `MarketSnapshot` that the setup engine reads:
`snapshot.trend`, `snapshot.trend_multi.get("weekly")` and
`snapshot.latest_price`. -/
structure MarketSnapshot where
  trend : TrendSnapshot
  weekly_trend : Option TrendSnapshot
  latest_price : ℚ
deriving DecidableEq, Repr

/-- `SetupResult` (engine.py lines 14-19). -/
structure SetupResult where
  name : String
  description : String
  active : Bool
  details : String
deriving DecidableEq, Repr

instance : Inhabited SetupResult := ⟨⟨"", "", false, ""⟩⟩

/-- `_trend_label` (engine.py lines 22-31). -/
def _trend_label (trend : TrendSnapshot) (price_above_ma200 : Option Bool) : String :=
  if trend.direction = "uptrend" then
    if trend.crossover = "bullish_stack" ∧
        (price_above_ma200 = none ∨ price_above_ma200 = some true) then "alta forte"
    else "alta moderada"
  else if trend.direction = "downtrend" then
    if trend.crossover = "bearish_stack" ∧
        (price_above_ma200 = none ∨ price_above_ma200 = some false) then "baixa forte"
    else "baixa moderada"
  else "lateral"

/-- `_float` (engine.py lines 34-38): `None` for a missing column or a
NaN last cell, the number otherwise; `float(...)` raises on a
non-numeric string (the quotes of the Python message are omitted). -/
def _float (df : EngineFrame) (column : String) : Except String (Option ℚ) :=
  match df_column df column with
  | none => .ok none
  | some cells =>
      match cells.getLast? with
      | none => .error "single positional indexer is out-of-bounds"
      | some .na => .ok none
      | some (.num q) => .ok (some q)
      | some (.txt s) => .error ("could not convert string to float: " ++ s)

/-- `series.dropna()`. -/
def dropna_cells (cells : List Cell) : List Cell :=
  cells.filter (fun c => c ≠ Cell.na)

/-- `.astype(float)` on a cell column: `NaN` stays missing, numbers pass,
the first non-numeric string raises. -/
def astype_float : List Cell → Except String (List (Option ℚ))
  | [] => .ok []
  | .na :: rest => do pure (none :: (← astype_float rest))
  | .num q :: rest => do pure (some q :: (← astype_float rest))
  | .txt s :: _ => .error ("could not convert string to float: " ++ s)

/-- `_lagged_values` (engine.py lines 41-47): the last `n` non-missing
values of a column ([] when the column is absent or empty). -/
def _lagged_values (df : EngineFrame) (column : String) (n : ℕ) :
    Except String (List ℚ) :=
  match df_column df column with
  | none => .ok []
  | some cells => do
      let vals := (← astype_float (dropna_cells cells)).filterMap id
      if vals.isEmpty then pure []
      else pure (vals.drop (vals.length - n))

/-- `_setup_trend_following` (engine.py lines 50-85). -/
def _setup_trend_following (snapshot : MarketSnapshot) (df : EngineFrame) :
    Except String SetupResult := do
  let ema21 ← _float df "EMA_21"
  let volume_rat ← _float df "Volume_Ratio"
  let price := snapshot.latest_price
  let sma200 ← _float df "SMA_200"
  let price_above_ma200 : Option Bool := sma200.map (fun v => decide (price ≥ v))
  let daily_label := _trend_label snapshot.trend price_above_ma200
  let weekly_label : Option String :=
    snapshot.weekly_trend.map (fun w => _trend_label w price_above_ma200)
  let active : Bool :=
    decide (daily_label = "alta forte") &&
    (match weekly_label with
     | some l => decide (l = "alta moderada" ∨ l = "alta forte")
     | none => true) &&
    (match ema21 with
     | some e => decide (price ≥ e)
     | none => false) &&
    (match volume_rat with
     | some v => decide (v ≥ 1)
     | none => false)
  pure
    { name := "Trend Following"
      description := "Seguir tendência em alta com pullback raso."
      active := active
      details :=
        if active then
          "Tendência diária/semana favorável, preço acima da EMA21 e volume >= média 20d."
        else
          "Requer tendência forte, preço acima da EMA21 e volume em linha com a média." }

/-- `snapshot.trend_multi.get("weekly")` label as used by the RSI rebound
setup (engine.py lines 99-100): `"lateral"` when absent. -/
def weekly_label_of (snapshot : MarketSnapshot) : String :=
  match snapshot.weekly_trend with
  | some w => _trend_label w none
  | none => "lateral"

/-- `_setup_rsi_rebound` (engine.py lines 88-120). -/
def _setup_rsi_rebound (snapshot : MarketSnapshot) (df : EngineFrame) :
    Except String SetupResult := do
  let rsi_values ← _lagged_values df "RSI_14" 3
  if rsi_values.length < 2 then
    pure
      { name := "RSI Rebound"
        description := "Retomada a partir de sobrevenda (RSI 30)."
        active := false
        details := "RSI insuficiente para avaliar cruzamento." }
  else
    let rsi_prev := rsi_values.getD (rsi_values.length - 2) 0
    let rsi_now := rsi_values.getLastD 0
    let weekly_label := weekly_label_of snapshot
    let crossed_up : Bool :=
      decide (rsi_prev ≤ 30) && decide (30 < rsi_now) && decide (rsi_now ≤ 45)
    let active : Bool := crossed_up &&
      decide (weekly_label = "alta moderada" ∨ weekly_label = "alta forte" ∨
        weekly_label = "lateral")
    pure
      { name := "RSI Rebound"
        description := "Compra quando RSI reacelera acima da faixa 30."
        active := active
        details :=
          if active then
            "RSI saiu da zona de sobrevenda e semanal não está em baixa forte."
          else "Aguardando RSI cruzar 30 ou melhorar tendência semanal." }

/-- `short_col[-2:]`: the last two characters of a column name. -/
def last_two (s : String) : String := s.drop (s.length - 2)

/-- `_ema_cross` (engine.py lines 123-181). -/
def _ema_cross (snapshot : MarketSnapshot) (df : EngineFrame)
    (short_col long_col : String) : Except String (List SetupResult) :=
  match df_column df short_col, df_column df long_col with
  | some short_cells, some long_cells => do
      let short_vals ← astype_float short_cells
      let long_vals ← astype_float long_cells
      let diff := List.zipWith (fun a b =>
        match a, b with
        | some x, some y => some (x - y)
        | _, _ => (none : Option ℚ)) short_vals long_vals
      if (diff.filterMap id).length < 2 then pure []
      else
        let latest_diff := diff.getLastD none
        let prev_diff := diff.getD (diff.length - 2) none
        let daily_label := _trend_label snapshot.trend none
        let crossed_up : Bool :=
          match prev_diff, latest_diff with
          | some p, some l => decide (p ≤ 0) && decide (0 < l)
          | _, _ => false
        let crossed_down : Bool :=
          match prev_diff, latest_diff with
          | some p, some l => decide (p ≥ 0) && decide (0 > l)
          | _, _ => false
        let pair_name := "EMA Cross (" ++ last_two short_col ++ " x " ++ last_two long_col ++ ")"
        let buy : List SetupResult :=
          if crossed_up then
            let act : Bool := decide (daily_label = "alta moderada" ∨ daily_label = "alta forte")
            [{ name := pair_name ++ " compra"
               description := "EMA " ++ last_two short_col ++ " cruzando acima da EMA " ++
                 last_two long_col ++ "."
               active := act
               details :=
                 if act then "Cruzamento de compra confirmado pela tendência diária."
                 else "Cruzamento de compra, mas tendência diária não favorece." }]
          else []
        let sell : List SetupResult :=
          if crossed_down then
            let act : Bool := decide (daily_label = "baixa moderada" ∨ daily_label = "baixa forte")
            [{ name := pair_name ++ " venda"
               description := "EMA " ++ last_two short_col ++ " cruzando abaixo da EMA " ++
                 last_two long_col ++ "."
               active := act
               details :=
                 if act then "Cruzamento de venda alinhado à tendência diária."
                 else "Cruzamento de venda, porém tendência diária não está em baixa." }]
          else []
        pure (buy ++ sell)
  | _, _ => pure []

/-- The inactive result injected by the `except` branch of
`evaluate_setups` (engine.py lines 196-204).  All four setup functions
are lambdas, so `getattr(func, "__name__", "setup")` is the constant
string `"<lambda>"`. -/
def lambda_error_result (exc : String) : SetupResult :=
  { name := "<lambda>", description := "Erro ao avaliar setup.", active := false, details := exc }

/-- The `try`/`except` around one setup function. -/
def run_setup (r : Except String (List SetupResult)) : List SetupResult :=
  match r with
  | .ok l => l
  | .error e => [lambda_error_result e]

/-- The result-collection loop of `evaluate_setups`
(engine.py lines 192-206). -/
def evaluate_setups_loop : List (Except String (List SetupResult)) → List SetupResult
  | [] => []
  | f :: rest => run_setup f ++ evaluate_setups_loop rest

/-- `evaluate_setups` (engine.py lines 184-206) over its fixed tuple of
four lambda-wrapped setup functions. -/
def evaluate_setups (snapshot : MarketSnapshot) (df : EngineFrame) : List SetupResult :=
  evaluate_setups_loop
    [(_setup_trend_following snapshot df).map (fun r => [r]),
     (_setup_rsi_rebound snapshot df).map (fun r => [r]),
     _ema_cross snapshot df "EMA_9" "EMA_21",
     _ema_cross snapshot df "EMA_21" "EMA_72"]

/-! ## Shared instances and concrete evaluation inputs -/

instance {ε α : Type} [DecidableEq ε] [DecidableEq α] : DecidableEq (Except ε α) :=
  fun x y =>
    match x, y with
    | .ok a, .ok b => decidable_of_iff (a = b) (by simp)
    | .ok _, .error _ => isFalse (by simp)
    | .error _, .ok _ => isFalse (by simp)
    | .error e, .error f => decidable_of_iff (e = f) (by simp)

instance : Inhabited FibonacciLevels := ⟨⟨[], 0, 0, 0, 0⟩⟩

/-- Close-only frame (7 weekly rows): closes 100, 90, 80, 100, 80, 90, 110
on consecutive Mondays.  Its latest close (110) lies above a weekly-swing
resistance at 100, which the reclassification step moves into the support
pool next to the round-number support at 100. -/
def lvl_rows : List LevelRow :=
  [⟨4, 100, 100, 100⟩, ⟨11, 90, 90, 90⟩, ⟨18, 80, 80, 80⟩, ⟨25, 100, 100, 100⟩,
   ⟨32, 80, 80, 80⟩, ⟨39, 90, 90, 90⟩, ⟨46, 110, 110, 110⟩]

/-- The level collection computed from `lvl_rows` with the default
parameters of `consolidate_levels`. -/
def lvl_levels : PriceLevels := (consolidate_levels lvl_rows 5 5 (1/2)).getD default

/-- Close-only frame with one hump then a decline: the last pivot is a low,
so the position-based swap of `_find_recent_swing` reverses the anchors. -/
def fib_decline_rows : List LevelRow :=
  [⟨0, 100, 100, 100⟩, ⟨1, 110, 110, 110⟩, ⟨2, 100, 100, 100⟩, ⟨3, 90, 90, 90⟩,
   ⟨4, 80, 80, 80⟩, ⟨5, 70, 70, 70⟩, ⟨6, 60, 60, 60⟩, ⟨7, 50, 50, 50⟩]

/-- Constant frame (7 rows at 100): the degenerate swing. -/
def fib_flat_rows : List LevelRow :=
  [⟨0, 100, 100, 100⟩, ⟨1, 100, 100, 100⟩, ⟨2, 100, 100, 100⟩, ⟨3, 100, 100, 100⟩,
   ⟨4, 100, 100, 100⟩, ⟨5, 100, 100, 100⟩, ⟨6, 100, 100, 100⟩]

/-- The Fibonacci result of the constant frame. -/
def fib_flat : FibonacciLevels := (compute_retracements fib_flat_rows 252).getD default

/-- Price series with highs at positions 4 and 10, lows at 14 and 20. -/
def div_prices : List ℚ :=
  [50, 52, 54, 56, 60, 58, 57, 56, 55, 54, 62, 58, 54, 50, 45, 47, 48, 49, 50, 46, 40]

/-- RSI series making a lower high at 10 and higher lows at 14 and 20. -/
def div_rsi : List ℚ :=
  [30, 40, 45, 50, 70, 60, 55, 50, 48, 46, 50, 48, 46, 44, 35, 38, 40, 42, 44, 36, 42]

/-- Dates 0..20 for the divergence series. -/
def div_dates : List ℕ := List.range 21

/-- A flat indicator series (no OBV/MACD divergences). -/
def div_flat : List ℚ := List.replicate 21 0

/-- Snapshot with a sideways daily trend and no weekly trend. -/
def eng_snapshot : MarketSnapshot := ⟨⟨"sideways", 0, 0, 0, "mixed"⟩, none, 100⟩

/-- Snapshot whose weekly trend is a moderate downtrend
(direction `downtrend`, crossover `mixed`, hence label `baixa moderada`). -/
def eng_snapshot_bearish : MarketSnapshot :=
  ⟨⟨"sideways", 0, 0, 0, "mixed"⟩, some ⟨"downtrend", -1, -1, -1, "mixed"⟩, 100⟩

/-- Frame whose `EMA_21` last cell is a non-numeric string: the
trend-following setup raises inside `_float`. -/
def eng_df_fail1 : EngineFrame := [("EMA_21", [Cell.txt "abc"])]

/-- Frame whose `RSI_14` cells are non-numeric: the RSI rebound setup
raises inside `_lagged_values`. -/
def eng_df_fail2 : EngineFrame := [("RSI_14", [Cell.txt "xyz"])]

/-- Frame with an RSI history crossing up from oversold: 25 then 40. -/
def eng_df_rsi : EngineFrame := [("RSI_14", [Cell.num 25, Cell.num 40])]

/-- Raw frame with every required column and a single unparseable date. -/
def raw_frame_bad_dates : RawFrame := ⟨REQUIRED_COLUMNS, [none]⟩

/-- Raw frame with every required column and two unparseable dates. -/
def raw_frame_bad_dates2 : RawFrame := ⟨REQUIRED_COLUMNS, [none, none]⟩

/-! ## C1 — consolidated level lists: sorted, but not tolerance-separated -/

/-- Values of a finalized pool are ascending. -/
theorem finalize_sorted (l : List LevelDetail) :
    List.Sorted (· ≤ ·) ((_finalize_candidates l).map (·.value)) := by
  have hs : List.Sorted detail_le (_finalize_candidates l) :=
    List.sorted_insertionSort detail_le l
  unfold List.Sorted at hs ⊢
  rw [List.pairwise_map]
  exact hs

/-- C1 (amended): for every frame accepted by `consolidate_levels` and all
parameter values, the returned `supports` and `resistances` lists are each
sorted ascending by value.  (The second half of the original claim — that
no two entries lie within the merge tolerance of each other — is refuted
by `c1_counterexample`.) -/
theorem c1_consolidated_levels_sorted (rows : List LevelRow) (round_step : ℚ)
    (round_width : ℕ) (g : ℚ) (P : PriceLevels)
    (h : consolidate_levels rows round_step round_width g = some P) :
    List.Sorted (· ≤ ·) P.supports ∧ List.Sorted (· ≤ ·) P.resistances := by
  unfold consolidate_levels at h
  split at h
  · exact absurd h (by simp)
  · rw [Option.some.injEq] at h
    subst h
    exact ⟨finalize_sorted _, finalize_sorted _⟩

/-- Witness for C1 at the concrete frame `lvl_rows`. -/
theorem c1_witness :
    List.Sorted (· ≤ ·) lvl_levels.supports ∧ List.Sorted (· ≤ ·) lvl_levels.resistances :=
  c1_consolidated_levels_sorted lvl_rows 5 5 (1/2) lvl_levels (by with_unfolding_all decide)

/-- C1 counterexample: on `lvl_rows` the support list contains two distinct
entries (positions 7 and 8) both equal to 100, at relative distance 0 % —
within the 0.5 % merge tolerance.  The reclassified weekly resistance is
appended to the supports without any tolerance check. -/
theorem c1_counterexample :
    consolidate_levels lvl_rows 5 5 (1/2) = some lvl_levels ∧
    lvl_levels.supports.getD 7 0 = 100 ∧ lvl_levels.supports.getD 8 0 = 100 ∧
    |lvl_levels.supports.getD 7 0 - lvl_levels.supports.getD 8 0| /
      |lvl_levels.supports.getD 7 0| * 100 ≤ 1/2 := by
  with_unfolding_all decide

/-! ## C2 — merge-pass weight and value accounting -/

/-- Invariant of a detail during the merge pass: positive total
contribution weight, value equal to the weighted mean of the
contributions, weight equal to their sum, and not yet reclassified. -/
def pool_invariant (d : LevelDetail) : Prop :=
  0 < contrib_weight d ∧ d.value * contrib_weight d = contrib_wsum d ∧
  d.weight = contrib_weight d ∧ "topo_rompido" ∉ d.tags

/-- Invariant of a returned detail: the weight is the contribution sum
plus the fixed reclassification bonus of 2 for migrated details, and the
value is still the weighted mean of the contributions. -/
def merge_invariant (d : LevelDetail) : Prop :=
  0 < contrib_weight d ∧ d.value * contrib_weight d = contrib_wsum d ∧
  d.weight = contrib_weight d + (if "topo_rompido" ∈ d.tags then 2 else 0)

theorem contrib_weight_merge (d : LevelDetail) (v w : ℚ) (t : String) :
    contrib_weight (d.merge v w t) = contrib_weight d + w := by
  simp [contrib_weight, LevelDetail.merge, listSum]

theorem contrib_wsum_merge (d : LevelDetail) (v w : ℚ) (t : String) :
    contrib_wsum (d.merge v w t) = contrib_wsum d + v * w := by
  simp [contrib_wsum, LevelDetail.merge, listSum]

theorem pool_invariant_merge (d : LevelDetail) (v w : ℚ) (t : String)
    (hd : pool_invariant d) (hw : 0 < w) (ht : t ≠ "topo_rompido") :
    pool_invariant (d.merge v w t) := by
  obtain ⟨h1, h2, h3, h4⟩ := hd
  have hne : contrib_weight d + w ≠ 0 := ne_of_gt (add_pos h1 hw)
  have htot : d.weight + w ≠ 0 := by rw [h3]; exact hne
  refine ⟨?_, ?_, ?_, ?_⟩
  · rw [contrib_weight_merge]; exact add_pos h1 hw
  · have hv : (d.merge v w t).value = (d.value * d.weight + v * w) / (d.weight + w) := by
      simp only [LevelDetail.merge, if_neg htot]
    rw [contrib_weight_merge, contrib_wsum_merge, hv, h3, div_mul_cancel₀ _ hne, h2]
  · have hwq : (d.merge v w t).weight = d.weight + w := rfl
    rw [contrib_weight_merge, hwq, h3]
  · have htags : (d.merge v w t).tags = if t ∈ d.tags then d.tags else d.tags ++ [t] := rfl
    rw [htags]
    split
    · exact h4
    · simp only [List.mem_append, List.mem_singleton]
      rintro (hmem | hmem)
      · exact h4 hmem
      · exact ht hmem.symm

theorem pool_invariant_new (v w : ℚ) (t : String) (hw : 0 < w) (ht : t ≠ "topo_rompido") :
    pool_invariant ⟨v, w, 1, [t], [(v, w)]⟩ := by
  refine ⟨?_, ?_, ?_, ?_⟩
  · simpa [contrib_weight, listSum] using hw
  · simp [contrib_weight, contrib_wsum, listSum]
  · simp [contrib_weight, listSum]
  · simp only [List.mem_singleton]
    intro hmem
    exact ht hmem.symm

/-- Everything produced by the scan is an input detail, an input detail
merged with the candidate, or the fresh detail. -/
theorem add_scan_mem (v w : ℚ) (t : String) (tol : ℚ) (l : List LevelDetail) :
    ∀ x ∈ add_scan v w t tol l,
      x ∈ l ∨ (∃ d ∈ l, x = d.merge v w t) ∨ x = ⟨v, w, 1, [t], [(v, w)]⟩ := by
  induction l with
  | nil =>
      intro x hx
      simp only [add_scan, List.mem_singleton] at hx
      exact Or.inr (Or.inr hx)
  | cons a rest ih =>
      intro x hx
      simp only [add_scan] at hx
      split at hx
      · rcases List.mem_cons.mp hx with h | h
        · exact Or.inl (h ▸ List.mem_cons_self a rest)
        · rcases ih x h with h2 | ⟨d, hd, h2⟩ | h2
          · exact Or.inl (List.mem_cons_of_mem a h2)
          · exact Or.inr (Or.inl ⟨d, List.mem_cons_of_mem a hd, h2⟩)
          · exact Or.inr (Or.inr h2)
      · split at hx
        · rcases List.mem_cons.mp hx with h | h
          · exact Or.inr (Or.inl ⟨a, List.mem_cons_self a rest, h⟩)
          · exact Or.inl (List.mem_cons_of_mem a h)
        · rcases List.mem_cons.mp hx with h | h
          · exact Or.inl (h ▸ List.mem_cons_self a rest)
          · rcases ih x h with h2 | ⟨d, hd, h2⟩ | h2
            · exact Or.inl (List.mem_cons_of_mem a h2)
            · exact Or.inr (Or.inl ⟨d, List.mem_cons_of_mem a hd, h2⟩)
            · exact Or.inr (Or.inr h2)

theorem add_scan_invariant (v w : ℚ) (t : String) (tol : ℚ) (l : List LevelDetail)
    (hl : ∀ d ∈ l, pool_invariant d) (hw : 0 < w) (ht : t ≠ "topo_rompido") :
    ∀ d ∈ add_scan v w t tol l, pool_invariant d := by
  intro d hd
  rcases add_scan_mem v w t tol l d hd with h | ⟨a, ha, rfl⟩ | rfl
  · exact hl d h
  · exact pool_invariant_merge a v w t (hl a ha) hw ht
  · exact pool_invariant_new v w t hw ht

theorem add_candidate_invariant (l : List LevelDetail) (v w : ℚ) (t : String) (tol : ℚ)
    (hl : ∀ d ∈ l, pool_invariant d) (hw : 0 < w) (ht : t ≠ "topo_rompido") :
    ∀ d ∈ _add_candidate l v w t tol, pool_invariant d := by
  unfold _add_candidate
  split
  · exact hl
  · exact add_scan_invariant v w t tol l hl hw ht

theorem add_candidates_invariant (l : List LevelDetail) (values : List ℚ) (w : ℚ)
    (t : String) (tol : ℚ) (hl : ∀ d ∈ l, pool_invariant d) (hw : 0 < w)
    (ht : t ≠ "topo_rompido") :
    ∀ d ∈ add_candidates l values w t tol, pool_invariant d := by
  induction values generalizing l with
  | nil => exact hl
  | cons v rest ih =>
      exact ih (_add_candidate l v w t tol)
        (add_candidate_invariant l v w t tol hl hw ht)

theorem full_support_pool_invariant (df : List LevelRow) (rn : List ℚ)
    (sp : SpecialLevels) (g : ℚ) :
    ∀ d ∈ full_support_pool df rn sp g, pool_invariant d := by
  unfold full_support_pool swing_support_details
  refine add_candidate_invariant _ _ _ _ _
    (add_candidate_invariant _ _ _ _ _
      (add_candidates_invariant _ _ _ _ _
        (add_candidates_invariant _ _ _ _ _
          (add_candidates_invariant _ _ _ _ _
            (add_candidates_invariant _ _ _ _ _
              (add_candidates_invariant _ _ _ _ _ (by simp) (by norm_num) (by decide))
              (by norm_num) (by decide))
            (by norm_num) (by decide))
          (by norm_num) (by decide))
        (by norm_num) (by decide))
      (by norm_num) (by decide))
    (by norm_num) (by decide)

theorem full_resistance_pool_invariant (df : List LevelRow) (rn : List ℚ)
    (sp : SpecialLevels) (g : ℚ) :
    ∀ d ∈ full_resistance_pool df rn sp g, pool_invariant d := by
  unfold full_resistance_pool swing_resistance_details
  refine add_candidate_invariant _ _ _ _ _
    (add_candidate_invariant _ _ _ _ _
      (add_candidates_invariant _ _ _ _ _
        (add_candidates_invariant _ _ _ _ _
          (add_candidates_invariant _ _ _ _ _
            (add_candidates_invariant _ _ _ _ _
              (add_candidates_invariant _ _ _ _ _ (by simp) (by norm_num) (by decide))
              (by norm_num) (by decide))
            (by norm_num) (by decide))
          (by norm_num) (by decide))
        (by norm_num) (by decide))
      (by norm_num) (by decide))
    (by norm_num) (by decide)

theorem pool_invariant_to_merge (d : LevelDetail) (hd : pool_invariant d) :
    merge_invariant d := by
  obtain ⟨h1, h2, h3, h4⟩ := hd
  exact ⟨h1, h2, by rw [h3, if_neg h4, add_zero]⟩

theorem migrated_merge_invariant (d : LevelDetail) (hd : pool_invariant d) :
    merge_invariant (d.add_tag "topo_rompido" 2) := by
  obtain ⟨h1, h2, h3, h4⟩ := hd
  have hc : (d.add_tag "topo_rompido" 2).contribs = d.contribs := rfl
  have htags : (d.add_tag "topo_rompido" 2).tags = d.tags ++ ["topo_rompido"] := by
    simp only [LevelDetail.add_tag, if_neg h4]
  have hval : (d.add_tag "topo_rompido" 2).value = d.value := rfl
  have hwt : (d.add_tag "topo_rompido" 2).weight = d.weight + 2 := rfl
  have hcw : contrib_weight (d.add_tag "topo_rompido" 2) = contrib_weight d := by
    unfold contrib_weight
    rw [hc]
  have hcs : contrib_wsum (d.add_tag "topo_rompido" 2) = contrib_wsum d := by
    unfold contrib_wsum
    rw [hc]
  refine ⟨?_, ?_, ?_⟩
  · rw [hcw]; exact h1
  · rw [hcw, hcs, hval]; exact h2
  · have hmem : "topo_rompido" ∈ d.tags ++ ["topo_rompido"] := by simp
    rw [hwt, htags, if_pos hmem, hcw, h3]

theorem migrate_fold_invariant (r : List LevelDetail)
    (acc : List LevelDetail × List LevelDetail) (lp : ℚ)
    (hr : ∀ d ∈ r, pool_invariant d)
    (h1 : ∀ d ∈ acc.1, merge_invariant d) (h2 : ∀ d ∈ acc.2, merge_invariant d) :
    (∀ d ∈ (r.foldl (fun st d =>
        if "swing_semanal" ∈ d.tags ∧ d.value < lp then
          (st.1 ++ [d.add_tag "topo_rompido" 2], st.2)
        else (st.1, st.2 ++ [d])) acc).1, merge_invariant d) ∧
    (∀ d ∈ (r.foldl (fun st d =>
        if "swing_semanal" ∈ d.tags ∧ d.value < lp then
          (st.1 ++ [d.add_tag "topo_rompido" 2], st.2)
        else (st.1, st.2 ++ [d])) acc).2, merge_invariant d) := by
  induction r generalizing acc with
  | nil => exact ⟨h1, h2⟩
  | cons a rest ih =>
      simp only [List.foldl_cons]
      apply ih
      · exact fun d hd => hr d (List.mem_cons_of_mem a hd)
      · split
        · intro d hd
          rcases List.mem_append.mp hd with h | h
          · exact h1 d h
          · rw [List.mem_singleton.mp h]
            exact migrated_merge_invariant a (hr a (List.mem_cons_self a rest))
        · exact h1
      · split
        · exact h2
        · intro d hd
          rcases List.mem_append.mp hd with h | h
          · exact h2 d h
          · rw [List.mem_singleton.mp h]
            exact pool_invariant_to_merge a (hr a (List.mem_cons_self a rest))

theorem migrate_pools_invariant (supports resistances : List LevelDetail) (lp : ℚ)
    (hs : ∀ d ∈ supports, pool_invariant d) (hr : ∀ d ∈ resistances, pool_invariant d) :
    (∀ d ∈ (migrate_pools supports resistances lp).1, merge_invariant d) ∧
    (∀ d ∈ (migrate_pools supports resistances lp).2, merge_invariant d) := by
  unfold migrate_pools
  exact migrate_fold_invariant resistances (supports, []) lp hr
    (fun d hd => pool_invariant_to_merge d (hs d hd)) (by simp)

/-- C2 (amended): every `LevelDetail` returned by `consolidate_levels`
has value equal to the weight-weighted mean of the candidate contributions
merged into it, and weight equal to the sum of their weights **plus a
fixed bonus of 2.0 when the detail was reclassified as broken resistance**
(tag `topo_rompido`); for unreclassified details the original claim holds
exactly.  (The original claim, with no bonus term, is refuted by
`c2_counterexample`.) -/
theorem c2_merge_accounting (rows : List LevelRow) (round_step : ℚ) (round_width : ℕ)
    (g : ℚ) (P : PriceLevels) (h : consolidate_levels rows round_step round_width g = some P)
    (d : LevelDetail) (hd : d ∈ P.support_details ∨ d ∈ P.resistance_details) :
    0 < contrib_weight d ∧ d.value * contrib_weight d = contrib_wsum d ∧
    d.weight = contrib_weight d + (if "topo_rompido" ∈ d.tags then 2 else 0) := by
  unfold consolidate_levels at h
  split at h
  · exact absurd h (by simp)
  · rename_i last_row heq
    rw [Option.some.injEq] at h
    subst h
    have hinv := migrate_pools_invariant
      (full_support_pool (sort_rows rows)
        (detect_round_numbers ((sort_rows rows).map (·.close)) round_step round_width)
        (compute_special_levels (sort_rows rows)) g)
      (full_resistance_pool (sort_rows rows)
        (detect_round_numbers ((sort_rows rows).map (·.close)) round_step round_width)
        (compute_special_levels (sort_rows rows)) g)
      last_row.close (full_support_pool_invariant _ _ _ _)
      (full_resistance_pool_invariant _ _ _ _)
    rcases hd with hd | hd
    · have hmem := (List.perm_insertionSort detail_le _).mem_iff.mp hd
      exact hinv.1 d hmem
    · have hmem := (List.perm_insertionSort detail_le _).mem_iff.mp hd
      exact hinv.2 d hmem

/-- Witness for C2 at the migrated detail of the concrete frame. -/
theorem c2_witness :
    0 < contrib_weight (lvl_levels.support_details.getD 8 default) ∧
    (lvl_levels.support_details.getD 8 default).value *
      contrib_weight (lvl_levels.support_details.getD 8 default) =
      contrib_wsum (lvl_levels.support_details.getD 8 default) ∧
    (lvl_levels.support_details.getD 8 default).weight =
      contrib_weight (lvl_levels.support_details.getD 8 default) +
        (if "topo_rompido" ∈ (lvl_levels.support_details.getD 8 default).tags then 2 else 0) :=
  c2_merge_accounting lvl_rows 5 5 (1/2) lvl_levels (by with_unfolding_all decide)
    (lvl_levels.support_details.getD 8 default)
    (Or.inl (by with_unfolding_all decide))

/-- C2 counterexample: the reclassified detail at value 100 of the
concrete frame has final weight 11.3, while the weights of the candidate
contributions merged into it sum to 9.3 — `add_tag` adds 2.0 with no
contribution, so the final weight is **not** the contribution sum. -/
theorem c2_counterexample :
    consolidate_levels lvl_rows 5 5 (1/2) = some lvl_levels ∧
    (lvl_levels.support_details.getD 8 default).weight = 113/10 ∧
    contrib_weight (lvl_levels.support_details.getD 8 default) = 93/10 ∧
    (lvl_levels.support_details.getD 8 default).weight ≠
      contrib_weight (lvl_levels.support_details.getD 8 default) := by
  with_unfolding_all decide

/-! ## C3 — swing anchors: assigned by chronology, not by value -/

theorem argmax_fold_spec (v : List ℚ) (l : List ℕ) (best : ℕ) :
    ((l.foldl (fun best i => if vget v i > vget v best then i else best) best) = best ∨
      (l.foldl (fun best i => if vget v i > vget v best then i else best) best) ∈ l) ∧
    vget v best ≤ vget v (l.foldl (fun best i => if vget v i > vget v best then i else best) best) ∧
    ∀ j ∈ l, vget v j ≤
      vget v (l.foldl (fun best i => if vget v i > vget v best then i else best) best) := by
  induction l generalizing best with
  | nil => simp
  | cons i rest ih =>
      simp only [List.foldl_cons]
      obtain ⟨ih1, ih2, ih3⟩ := ih (if vget v i > vget v best then i else best)
      refine ⟨?_, ?_, ?_⟩
      · rcases ih1 with h | h
        · rw [h]
          split
          · exact Or.inr (List.mem_cons_self i rest)
          · exact Or.inl rfl
        · exact Or.inr (List.mem_cons_of_mem i h)
      · refine le_trans ?_ ih2
        split
        · exact le_of_lt (by assumption)
        · exact le_refl _
      · intro j hj
        rcases List.mem_cons.mp hj with h | h
        · subst h
          refine le_trans ?_ ih2
          split
          · exact le_refl _
          · exact le_of_not_lt (by assumption)
        · exact ih3 j h

theorem argmax_idx_spec (v : List ℚ) (hv : v ≠ []) :
    argmax_idx v < v.length ∧ ∀ j < v.length, vget v j ≤ vget v (argmax_idx v) := by
  have hn : 0 < v.length := List.length_pos.mpr hv
  obtain ⟨h1, _, h3⟩ := argmax_fold_spec v (List.range v.length) 0
  constructor
  · rcases h1 with h | h
    · rw [argmax_idx, h]; exact hn
    · exact List.mem_range.mp (by rw [argmax_idx]; exact h)
  · intro j hj
    exact h3 j (List.mem_range.mpr hj)

theorem argmin_fold_spec (v : List ℚ) (l : List ℕ) (best : ℕ) :
    ((l.foldl (fun best i => if vget v i < vget v best then i else best) best) = best ∨
      (l.foldl (fun best i => if vget v i < vget v best then i else best) best) ∈ l) ∧
    vget v (l.foldl (fun best i => if vget v i < vget v best then i else best) best) ≤
      vget v best ∧
    ∀ j ∈ l, vget v (l.foldl (fun best i => if vget v i < vget v best then i else best) best) ≤
      vget v j := by
  induction l generalizing best with
  | nil => simp
  | cons i rest ih =>
      simp only [List.foldl_cons]
      obtain ⟨ih1, ih2, ih3⟩ := ih (if vget v i < vget v best then i else best)
      refine ⟨?_, ?_, ?_⟩
      · rcases ih1 with h | h
        · rw [h]
          split
          · exact Or.inr (List.mem_cons_self i rest)
          · exact Or.inl rfl
        · exact Or.inr (List.mem_cons_of_mem i h)
      · refine le_trans ih2 ?_
        split
        · exact le_of_lt (by assumption)
        · exact le_refl _
      · intro j hj
        rcases List.mem_cons.mp hj with h | h
        · subst h
          refine le_trans ih2 ?_
          split
          · exact le_refl _
          · exact le_of_not_lt (by assumption)
        · exact ih3 j h

theorem argmin_idx_spec (v : List ℚ) (hv : v ≠ []) :
    argmin_idx v < v.length ∧ ∀ j < v.length, vget v (argmin_idx v) ≤ vget v j := by
  have hn : 0 < v.length := List.length_pos.mpr hv
  obtain ⟨h1, _, h3⟩ := argmin_fold_spec v (List.range v.length) 0
  constructor
  · rcases h1 with h | h
    · rw [argmin_idx, h]; exact hn
    · exact List.mem_range.mp (by rw [argmin_idx]; exact h)
  · intro j hj
    exact h3 j (List.mem_range.mpr hj)

/-- The global argmax survives every clip-mode neighbourhood test. -/
theorem argmax_is_extremum (v : List ℚ) (hv : v ≠ []) (order : ℕ) :
    is_extremum v ge_q order (argmax_idx v) = true := by
  obtain ⟨hlt, hmax⟩ := argmax_idx_spec v hv
  have hn : 0 < v.length := List.length_pos.mpr hv
  rw [is_extremum, List.all_eq_true]
  intro s _
  rw [relextrema_step, Bool.and_eq_true]
  constructor
  · rw [ge_q, decide_eq_true_iff]
    exact hmax _ (lt_of_le_of_lt (min_le_right _ _) (Nat.sub_lt hn Nat.one_pos))
  · rw [ge_q, decide_eq_true_iff]
    exact hmax _ (lt_of_le_of_lt (Nat.sub_le _ _) hlt)

/-- The global argmin survives every clip-mode neighbourhood test. -/
theorem argmin_is_extremum (v : List ℚ) (hv : v ≠ []) (order : ℕ) :
    is_extremum v le_q order (argmin_idx v) = true := by
  obtain ⟨hlt, hmin⟩ := argmin_idx_spec v hv
  have hn : 0 < v.length := List.length_pos.mpr hv
  rw [is_extremum, List.all_eq_true]
  intro s _
  rw [relextrema_step, Bool.and_eq_true]
  constructor
  · rw [le_q, decide_eq_true_iff]
    exact hmin _ (lt_of_le_of_lt (min_le_right _ _) (Nat.sub_lt hn Nat.one_pos))
  · rw [le_q, decide_eq_true_iff]
    exact hmin _ (lt_of_le_of_lt (Nat.sub_le _ _) hlt)

theorem argmax_mem_positions (v : List ℚ) (h7 : 7 ≤ v.length) :
    argmax_idx v ∈ _positions v 3 ge_q := by
  have hv : v ≠ [] := List.ne_nil_of_length_pos (by omega)
  rw [_positions, if_neg (by omega), argrelextrema, List.mem_filter]
  exact ⟨List.mem_range.mpr (argmax_idx_spec v hv).1, argmax_is_extremum v hv 3⟩

theorem argmin_mem_positions (v : List ℚ) (h7 : 7 ≤ v.length) :
    argmin_idx v ∈ _positions v 3 le_q := by
  have hv : v ≠ [] := List.ne_nil_of_length_pos (by omega)
  rw [_positions, if_neg (by omega), argrelextrema, List.mem_filter]
  exact ⟨List.mem_range.mpr (argmin_idx_spec v hv).1, argmin_is_extremum v hv 3⟩

theorem positions_lt (v : List ℚ) (o : ℕ) (cmp : ℚ → ℚ → Bool) :
    ∀ x ∈ _positions v o cmp, x < v.length := by
  intro x hx
  rw [_positions] at hx
  split at hx
  · exact absurd hx (List.not_mem_nil x)
  · exact List.mem_range.mp (List.mem_filter.mp hx).1

theorem set_union_lt (a b : List ℕ) (n : ℕ) (ha : ∀ x ∈ a, x < n) (hb : ∀ x ∈ b, x < n) :
    ∀ x ∈ set_union a b, x < n := by
  intro x hx
  rcases List.mem_append.mp hx with h | h
  · exact ha x h
  · exact hb x (List.mem_filter.mp h).1

theorem foldl_max_lt (n : ℕ) :
    ∀ (l : List ℕ) (acc : ℕ), acc < n → (∀ x ∈ l, x < n) → l.foldl Nat.max acc < n := by
  intro l
  induction l with
  | nil => intro acc hacc _; exact hacc
  | cons a rest ih =>
      intro acc hacc hmem
      simp only [List.foldl_cons]
      exact ih (Nat.max acc a)
        (Nat.max_lt.mpr ⟨hacc, hmem a (List.mem_cons_self a rest)⟩)
        (fun x hx => hmem x (List.mem_cons_of_mem a hx))

theorem list_max_nat_lt (l : List ℕ) (n : ℕ) (hn : 0 < n) (hl : ∀ x ∈ l, x < n) :
    list_max_nat l < n :=
  foldl_max_lt n l 0 hn hl

/-- The low anchor position never exceeds the high anchor position:
the final swap of fibonacci.py lines 87-88 enforces it. -/
theorem swing_positions_snd_le_fst (hp lp : List ℕ) :
    (swing_positions hp lp).2 ≤ (swing_positions hp lp).1 := by
  rw [swing_positions]
  split
  · exact le_of_lt (by assumption)
  · exact le_of_not_lt (by assumption)

/-- Both anchor positions are at most the overall last pivot position. -/
theorem swing_positions_le_last (hp lp : List ℕ) :
    (swing_positions hp lp).1 ≤ swing_last_pos hp lp ∧
    (swing_positions hp lp).2 ≤ swing_last_pos hp lp := by
  have hpair : (swing_pair hp lp).1 ≤ swing_last_pos hp lp ∧
      (swing_pair hp lp).2 ≤ swing_last_pos hp lp := by
    rw [swing_pair]
    split
    · exact ⟨Nat.le_max_left _ _, le_refl _⟩
    · exact ⟨le_refl _, Nat.le_max_right _ _⟩
  rw [swing_positions]
  split
  · exact ⟨hpair.2, hpair.1⟩
  · exact hpair

/-- In the main branch (both position sets non-empty) `_find_recent_swing`
returns anchors with the high anchor at a position at or after the low
anchor, both in bounds. -/
theorem find_recent_swing_main (high_vals low_vals : List ℚ) (dates : List ℕ)
    (hlen : low_vals.length = high_vals.length) (h7 : 7 ≤ high_vals.length) :
    ∃ p1 p2, p2 ≤ p1 ∧ p1 < high_vals.length ∧ p2 < high_vals.length ∧
      _find_recent_swing high_vals low_vals dates =
        some (vget high_vals p1, vget low_vals p2, dget dates p1, dget dates p2) := by
  have hne : high_vals ≠ [] := List.ne_nil_of_length_pos (by omega)
  have hp_ne : (high_swing_positions high_vals).isEmpty = false := by
    rw [List.isEmpty_eq_false_iff_exists_mem]
    exact ⟨argmax_idx high_vals, List.mem_append_left _ (argmax_mem_positions high_vals h7)⟩
  have lp_ne : (low_swing_positions low_vals).isEmpty = false := by
    rw [List.isEmpty_eq_false_iff_exists_mem]
    exact ⟨argmin_idx low_vals, List.mem_append_left _
      (argmin_mem_positions low_vals (by omega))⟩
  have hp_lt : ∀ x ∈ high_swing_positions high_vals, x < high_vals.length :=
    set_union_lt _ _ _ (positions_lt _ _ _) (positions_lt _ _ _)
  have lp_lt : ∀ x ∈ low_swing_positions low_vals, x < high_vals.length := by
    rw [← hlen]
    exact set_union_lt _ _ _ (positions_lt _ _ _) (positions_lt _ _ _)
  have hlast : swing_last_pos (high_swing_positions high_vals) (low_swing_positions low_vals) <
      high_vals.length := by
    rw [swing_last_pos]
    exact Nat.max_lt.mpr ⟨list_max_nat_lt _ _ (by omega) hp_lt,
      list_max_nat_lt _ _ (by omega) lp_lt⟩
  obtain ⟨hb1, hb2⟩ :=
    swing_positions_le_last (high_swing_positions high_vals) (low_swing_positions low_vals)
  refine ⟨(swing_positions (high_swing_positions high_vals) (low_swing_positions low_vals)).1,
    (swing_positions (high_swing_positions high_vals) (low_swing_positions low_vals)).2,
    swing_positions_snd_le_fst _ _, lt_of_le_of_lt hb1 hlast, lt_of_le_of_lt hb2 hlast, ?_⟩
  rw [_find_recent_swing, if_neg (by simp [hne]), if_neg (by rw [hp_ne, lp_ne]; simp)]

/-- `List.getD` is monotone on a sorted list (within bounds). -/
theorem dget_mono (dates : List ℕ) (hs : List.Sorted (· ≤ ·) dates) (i j : ℕ)
    (hij : i ≤ j) (hj : j < dates.length) : dget dates i ≤ dget dates j := by
  rcases Nat.lt_or_ge i j with h | h
  · have hi : i < dates.length := lt_trans h hj
    rw [dget, dget, List.getD_eq_getElem dates 0 hi, List.getD_eq_getElem dates 0 hj]
    exact List.pairwise_iff_getElem.mp hs i j hi hj h
  · have : i = j := le_antisymm hij h
    rw [this]

/-- C3 (amended): whenever the lookback window holds at least 7 valid rows
with ascending dates, `compute_retracements` succeeds and its anchors are
assigned **by chronology**: the returned `high_date` is at or after
`low_date`, because `_find_recent_swing` swaps the pair whenever the high
position precedes the low position.  Assignment by value comparison — and
with it `base_high ≥ base_low` — does not hold; see `c3_counterexample`. -/
theorem c3_swing_chronological (rows : List LevelRow) (lookback : ℕ)
    (h7 : 7 ≤ (fib_window rows lookback).length)
    (hsort : List.Sorted (· ≤ ·) ((fib_window rows lookback).map (·.date))) :
    ∃ fib, compute_retracements rows lookback = some fib ∧ fib.low_date ≤ fib.high_date := by
  obtain ⟨p1, p2, hle, hp1, hp2, heq⟩ := find_recent_swing_main
    ((fib_window rows lookback).map (·.high)) ((fib_window rows lookback).map (·.low))
    ((fib_window rows lookback).map (·.date)) (by simp) (by simpa using h7)
  rw [compute_retracements, heq]
  refine ⟨_, rfl, ?_⟩
  simp only
  exact dget_mono _ hsort p2 p1 hle (by simpa using hp1)

/-- Witness for C3 at the declining concrete frame. -/
theorem c3_witness :
    ∃ fib, compute_retracements fib_decline_rows 252 = some fib ∧
      fib.low_date ≤ fib.high_date :=
  c3_swing_chronological fib_decline_rows 252 (by with_unfolding_all decide)
    (by with_unfolding_all decide)

/-- C3 counterexample: on the hump-then-decline frame the last pivot is a
low, the position swap fires, and the returned `base_high` (50, the High at
the late low pivot) is **smaller** than `base_low` (110, the Low at the
early high pivot) — refuting `base_high ≥ base_low` and assignment by
value comparison. -/
theorem c3_counterexample :
    (compute_retracements fib_decline_rows 252).map FibonacciLevels.base_high = some 50 ∧
    (compute_retracements fib_decline_rows 252).map FibonacciLevels.base_low = some 110 ∧
    (50 : ℚ) < 110 := by
  with_unfolding_all decide

/-! ## C4 — Ret_0 and Ret_100 versus the swing base -/

/-- Core fact about the ends of the retracement table, shared by the C4
theorem and its counterexample. -/
theorem retracement_ends_spec (rows : List LevelRow) (lookback : ℕ) (fib : FibonacciLevels)
    (h : compute_retracements rows lookback = some fib) :
    fib.levels.lookup "Ret_0" = some fib.base_high ∧
    (fib.base_high ≠ fib.base_low → fib.levels.lookup "Ret_100" = some fib.base_low) ∧
    (fib.base_high = fib.base_low →
      fib.levels.lookup "Ret_100" = some (fib.base_high - 1/1000000)) := by
  rw [compute_retracements] at h
  split at h
  · exact absurd h (by simp)
  · rename_i swing base_high base_low high_date low_date heq
    rw [Option.some.injEq] at h
    subst h
    refine ⟨?_, ?_, ?_⟩
    · simp [retracement_table, extension_table, List.lookup]
    · intro hne
      simp only [ne_eq] at hne
      simp [retracement_table, extension_table, List.lookup, hne]
    · intro heq2
      simp only at heq2
      simp [retracement_table, extension_table, List.lookup, heq2]

/-- C4 (amended): for every accepted input, `levels["Ret_0"]` equals
`base_high` exactly; `levels["Ret_100"]` equals `base_low` exactly
**whenever `base_high ≠ base_low`**; in the degenerate case
`base_high = base_low` the code substitutes `diff = 1e-6`, so
`Ret_100 = base_high - 1/1000000 ≠ base_low` (the original claim's
"including the degenerate case" is refuted by `c4_counterexample`). -/
theorem c4_retracement_ends (rows : List LevelRow) (lookback : ℕ) (fib : FibonacciLevels)
    (h : compute_retracements rows lookback = some fib) :
    fib.levels.lookup "Ret_0" = some fib.base_high ∧
    (fib.base_high ≠ fib.base_low → fib.levels.lookup "Ret_100" = some fib.base_low) ∧
    (fib.base_high = fib.base_low →
      fib.levels.lookup "Ret_100" = some (fib.base_high - 1/1000000)) :=
  retracement_ends_spec rows lookback fib h

/-- A defined option equals `some` of its default-read once it is known
to be `some`. -/
theorem eq_some_getD {α : Type} (o : Option α) (d : α) (h : o.isSome = true) :
    o = some (o.getD d) := by
  cases o with
  | none => exact absurd h (by simp)
  | some a => rfl

/-- Witness for C4 at the constant concrete frame. -/
theorem c4_witness :
    fib_flat.levels.lookup "Ret_0" = some fib_flat.base_high ∧
    (fib_flat.base_high ≠ fib_flat.base_low →
      fib_flat.levels.lookup "Ret_100" = some fib_flat.base_low) ∧
    (fib_flat.base_high = fib_flat.base_low →
      fib_flat.levels.lookup "Ret_100" = some (fib_flat.base_high - 1/1000000)) :=
  c4_retracement_ends fib_flat_rows 252 fib_flat
    (eq_some_getD _ _ (by with_unfolding_all decide))

set_option maxRecDepth 3000 in
/-- C4 counterexample: on the constant frame the swing is degenerate
(`base_high = base_low = 100`) and `Ret_100` is `base_high - 1e-6`,
**not** `base_low`. -/
theorem c4_counterexample :
    compute_retracements fib_flat_rows 252 = some fib_flat ∧
    fib_flat.base_high = 100 ∧ fib_flat.base_low = 100 ∧
    fib_flat.levels.lookup "Ret_100" ≠ some fib_flat.base_low := by
  have h1 : compute_retracements fib_flat_rows 252 = some fib_flat :=
    eq_some_getD _ _ (by with_unfolding_all decide)
  have hbh : fib_flat.base_high = 100 := by with_unfolding_all decide
  have hbl : fib_flat.base_low = 100 := by with_unfolding_all decide
  have hlook := (retracement_ends_spec fib_flat_rows 252 fib_flat h1).2.2
    (by rw [hbh, hbl])
  refine ⟨h1, hbh, hbl, ?_⟩
  rw [hlook, hbh, hbl]
  intro hcontra
  rw [Option.some.injEq] at hcontra
  norm_num at hcontra

/-! ## C5 — snapshot divergence list: concatenated, not chronological -/

theorem extrema_pairwise (v : List ℚ) (cmp : ℚ → ℚ → Bool) (o : ℕ) :
    List.Pairwise (· < ·) (_extrema v cmp o) := by
  rw [_extrema, argrelextrema]
  exact (List.pairwise_lt_range v.length).filter _

theorem extrema_lt (v : List ℚ) (cmp : ℚ → ℚ → Bool) (o : ℕ) :
    ∀ i ∈ _extrema v cmp o, i < v.length := by
  intro i hi
  rw [_extrema, argrelextrema] at hi
  exact List.mem_range.mp (List.mem_filter.mp hi).1

/-- Any signal emitted from a consecutive-pair scan carries the date of
the second member of one of the scanned positions. -/
theorem pairs_signals_mem (dates : List ℕ) (f : ℕ × ℕ → Option DivergenceSignal)
    (hf : ∀ p s, f p = some s → s.price_index = dget dates p.2) :
    ∀ (l : List ℕ), ∀ s ∈ (consecutive_pairs l).filterMap f,
      ∃ x ∈ l, s.price_index = dget dates x := by
  intro l
  induction l with
  | nil => simp [consecutive_pairs]
  | cons a tail ih =>
      cases tail with
      | nil => simp [consecutive_pairs]
      | cons b rest =>
          intro s hs
          rw [consecutive_pairs, List.filterMap_cons] at hs
          rcases hfa : f (a, b) with _ | s0
          · rw [hfa] at hs
            obtain ⟨x, hx, hpi⟩ := ih s hs
            exact ⟨x, List.mem_cons_of_mem a hx, hpi⟩
          · rw [hfa] at hs
            rcases List.mem_cons.mp hs with h | h
            · exact ⟨b, List.mem_cons_of_mem a (List.mem_cons_self b rest),
                h ▸ hf (a, b) s0 hfa⟩
            · obtain ⟨x, hx, hpi⟩ := ih s h
              exact ⟨x, List.mem_cons_of_mem a hx, hpi⟩

/-- A consecutive-pair scan over ascending positions with ascending dates
produces signals in chronological order. -/
theorem pairs_signals_sorted (dates : List ℕ) (f : ℕ × ℕ → Option DivergenceSignal)
    (hf : ∀ p s, f p = some s → s.price_index = dget dates p.2)
    (hd : List.Sorted (· ≤ ·) dates) :
    ∀ (l : List ℕ), List.Pairwise (· < ·) l → (∀ x ∈ l, x < dates.length) →
      List.Sorted (· ≤ ·)
        (((consecutive_pairs l).filterMap f).map (fun s => s.price_index)) := by
  intro l
  induction l with
  | nil => intro _ _; simp [consecutive_pairs]
  | cons a tail ih =>
      cases tail with
      | nil => intro _ _; simp [consecutive_pairs]
      | cons b rest =>
          intro hp hb
          have hp' := hp.of_cons
          have hb' : ∀ x ∈ b :: rest, x < dates.length :=
            fun x hx => hb x (List.mem_cons_of_mem a hx)
          have ihs := ih hp' hb'
          rw [consecutive_pairs, List.filterMap_cons]
          rcases hfa : f (a, b) with _ | s0
          · exact ihs
          · rw [List.map_cons, List.sorted_cons]
            refine ⟨?_, ihs⟩
            intro y hy
            obtain ⟨s, hs, hys⟩ := List.mem_map.mp hy
            obtain ⟨x, hx, hpi⟩ := pairs_signals_mem dates f hf (b :: rest) s hs
            rw [← hys, hpi, hf (a, b) s0 hfa]
            rcases List.mem_cons.mp hx with h | h
            · rw [h]
            · exact dget_mono dates hd b x (le_of_lt (List.rel_of_pairwise_cons hp' h))
                (hb' x hx)

/-- The emitted bullish signal of a pair scan carries the second date. -/
theorem low_pair_f_spec (prices : List ℚ) (dates : List ℕ) (ind : List ℚ)
    (mind : ℕ) (name : String) :
    ∀ p s, (fun p : ℕ × ℕ =>
      if p.2 - p.1 < mind then none
      else
        if vget prices p.2 < vget prices p.1 ∧ vget ind p.2 > vget ind p.1 then
          some (⟨"bullish", dget dates p.2, vget prices p.2, vget ind p.2, name⟩ :
            DivergenceSignal)
        else none) p = some s → s.price_index = dget dates p.2 := by
  intro p s h
  dsimp only at h
  split at h
  · exact absurd h (by simp)
  · split at h
    · rw [Option.some.injEq] at h
      rw [← h]
    · exact absurd h (by simp)

/-- The emitted bearish signal of a pair scan carries the second date. -/
theorem high_pair_f_spec (prices : List ℚ) (dates : List ℕ) (ind : List ℚ)
    (mind : ℕ) (name : String) :
    ∀ p s, (fun p : ℕ × ℕ =>
      if p.2 - p.1 < mind then none
      else
        if vget prices p.2 > vget prices p.1 ∧ vget ind p.2 < vget ind p.1 then
          some (⟨"bearish", dget dates p.2, vget prices p.2, vget ind p.2, name⟩ :
            DivergenceSignal)
        else none) p = some s → s.price_index = dget dates p.2 := by
  intro p s h
  dsimp only at h
  split at h
  · exact absurd h (by simp)
  · split at h
    · rw [Option.some.injEq] at h
      rw [← h]
    · exact absurd h (by simp)

/-- C5 (amended): the snapshot divergence list is the **concatenation** of
the per-indicator detector outputs (RSI, then OBV, then MACD histogram),
each detector returning its bullish signals followed by its bearish
signals; each of those groups is chronologically ordered, but the combined
list is not globally sorted by timestamp (see `c5_counterexample`). -/
theorem c5_divergences_concat_grouped (close : List ℚ) (dates : List ℕ)
    (rsi obv histogram : List ℚ) (hlen : close.length ≤ dates.length)
    (hd : List.Sorted (· ≤ ·) dates) :
    snapshot_divergences close dates rsi obv histogram =
      detect_rsi_divergences close dates rsi 5 5 ++
      detect_obv_divergences close dates obv 5 5 ++
      detect_macd_histogram_divergences close dates histogram 5 5 ∧
    (∀ ind : List ℚ, ∀ name : String, ∀ mind : ℕ,
      List.Sorted (· ≤ ·) ((low_pair_signals close dates ind mind name
        (_extrema close le_q 5)).map (fun s => s.price_index)) ∧
      List.Sorted (· ≤ ·) ((high_pair_signals close dates ind mind name
        (_extrema close ge_q 5)).map (fun s => s.price_index))) := by
  refine ⟨by rw [snapshot_divergences, List.append_assoc], ?_⟩
  intro ind name mind
  constructor
  · exact pairs_signals_sorted dates _ (low_pair_f_spec close dates ind mind name) hd
      (_extrema close le_q 5) (extrema_pairwise close le_q 5)
      (fun x hx => lt_of_lt_of_le (extrema_lt close le_q 5 x hx) hlen)
  · exact pairs_signals_sorted dates _ (high_pair_f_spec close dates ind mind name) hd
      (_extrema close ge_q 5) (extrema_pairwise close ge_q 5)
      (fun x hx => lt_of_lt_of_le (extrema_lt close ge_q 5 x hx) hlen)

/-- Witness for C5 at the concrete divergence series. -/
theorem c5_witness :
    snapshot_divergences div_prices div_dates div_rsi div_flat div_flat =
      detect_rsi_divergences div_prices div_dates div_rsi 5 5 ++
      detect_obv_divergences div_prices div_dates div_flat 5 5 ++
      detect_macd_histogram_divergences div_prices div_dates div_flat 5 5 ∧
    (∀ ind : List ℚ, ∀ name : String, ∀ mind : ℕ,
      List.Sorted (· ≤ ·) ((low_pair_signals div_prices div_dates ind mind name
        (_extrema div_prices le_q 5)).map (fun s => s.price_index)) ∧
      List.Sorted (· ≤ ·) ((high_pair_signals div_prices div_dates ind mind name
        (_extrema div_prices ge_q 5)).map (fun s => s.price_index))) :=
  c5_divergences_concat_grouped div_prices div_dates div_rsi div_flat div_flat
    (by with_unfolding_all decide) (by with_unfolding_all decide)

/-- C5 counterexample: the snapshot list of the concrete series has
timestamps 14, 20, 10 (two bullish RSI signals followed by an earlier
bearish one), so it is **not** ordered chronologically. -/
theorem c5_counterexample :
    (snapshot_divergences div_prices div_dates div_rsi div_flat div_flat).map
      (fun s => s.price_index) = [14, 20, 10] ∧
    ¬ List.Sorted (· ≤ ·)
      ((snapshot_divergences div_prices div_dates div_rsi div_flat div_flat).map
        (fun s => s.price_index)) := by
  with_unfolding_all decide

/-! ## C6 — breakout_signals on a one-row series -/

theorem false_breakout_check_ok (prices : List ℚ) (cond : Prop) [Decidable cond]
    (mk : ℚ → Option BreakoutSignal) (h2 : 2 ≤ prices.length) :
    false_breakout_check prices cond mk =
      .ok (if cond then mk (vget prices (prices.length - 2)) else none) := by
  rw [false_breakout_check]
  split
  · rw [iloc_m2, if_pos h2]
    rfl
  · rfl

/-- C6 (amended): for every price series **with at least two rows** and
any (possibly empty) support and resistance tuples, `breakout_signals`
returns normally; the result has one optional signal per category, and a
category whose level tuple is empty gets no signal.  With exactly one row
the function raises `IndexError` whenever a false-breakout guard fires
(see `c6_counterexample`). -/
theorem c6_breakout_no_raise (prices : List ℚ) (dates : List ℕ)
    (support_levels resistance_levels : List ℚ) (tolerance_pct : ℚ)
    (h2 : 2 ≤ prices.length) :
    ∃ m : BreakoutMap,
      breakout_signals prices dates support_levels resistance_levels tolerance_pct =
        Except.ok m ∧
      (resistance_levels = [] → m.breakout_up = none ∧ m.false_breakout_up = none) ∧
      (support_levels = [] → m.breakout_down = none ∧ m.false_breakout_down = none) := by
  have hne : prices ≠ [] := by
    intro h
    rw [h] at h2
    simp at h2
  obtain ⟨lp, hlast⟩ : ∃ lp, prices.getLast? = some lp := by
    cases h : prices.getLast? with
    | none => exact absurd (List.getLast?_eq_none_iff.mp h) hne
    | some a => exact ⟨a, rfl⟩
  simp only [breakout_signals, hlast, false_breakout_check_ok _ _ _ h2]
  refine ⟨_, rfl, ?_, ?_⟩
  · intro hres
    subst hres
    constructor
    · simp [_nearest, truthy]
    · simp [_nearest, truthy]
  · intro hsup
    subst hsup
    constructor
    · simp [_nearest, truthy]
    · simp [_nearest, truthy]

/-- Witness for C6 at a two-row series with empty level tuples. -/
theorem c6_witness :
    ∃ m : BreakoutMap,
      breakout_signals [100, 102] [0, 1] [] [] (1/2) = Except.ok m ∧
      (([] : List ℚ) = [] → m.breakout_up = none ∧ m.false_breakout_up = none) ∧
      (([] : List ℚ) = [] → m.breakout_down = none ∧ m.false_breakout_down = none) :=
  c6_breakout_no_raise [100, 102] [0, 1] [] [] (1/2) (by decide)

/-- C6 counterexample: a series with exactly one row (price 100) and a
resistance at 101 makes the false-breakout guard consult
`price.iloc[-2]`, which raises `IndexError` — `breakout_signals` does not
return normally. -/
theorem c6_counterexample :
    breakout_signals [100] [0] [] [101] (1/2) =
      Except.error "single positional indexer is out-of-bounds" := by
  with_unfolding_all decide

/-! ## C7 — predicate failure isolation in evaluate_setups -/

/-- C7 (amended): the collection loop of `evaluate_setups` is failure
isolating — if one setup function raises, every other function's results
appear unchanged and in order, with exactly one inactive `SetupResult`
carrying the exception message in the failing slot.  Its name, however, is
the constant `"<lambda>"` (the wrapper lambda's `__name__`), identical for
all four predicates, so the name does **not** identify which predicate
failed (see `c7_counterexample`). -/
theorem c7_setup_isolation (pre post : List (Except String (List SetupResult)))
    (e : String) :
    evaluate_setups_loop (pre ++ Except.error e :: post) =
      evaluate_setups_loop pre ++ lambda_error_result e :: evaluate_setups_loop post ∧
    (lambda_error_result e).active = false ∧ (lambda_error_result e).details = e := by
  refine ⟨?_, rfl, rfl⟩
  induction pre with
  | nil => rfl
  | cons f rest ih =>
      simp only [List.cons_append, evaluate_setups_loop, List.append_eq, ih,
        List.append_assoc]

/-- C7 counterexample: two different failing predicates (trend-following
on `eng_df_fail1`, RSI rebound on `eng_df_fail2`) yield error results with
the **same** name `"<lambda>"`, so the name does not identify the failing
predicate (the details do carry each exception message). -/
theorem c7_counterexample :
    ((evaluate_setups eng_snapshot eng_df_fail1).getD 0 default).name = "<lambda>" ∧
    ((evaluate_setups eng_snapshot eng_df_fail1).getD 0 default).details =
      "could not convert string to float: abc" ∧
    ((evaluate_setups eng_snapshot eng_df_fail2).getD 1 default).name = "<lambda>" ∧
    ((evaluate_setups eng_snapshot eng_df_fail2).getD 1 default).details =
      "could not convert string to float: xyz" ∧
    ((evaluate_setups eng_snapshot eng_df_fail1).getD 0 default).name =
      ((evaluate_setups eng_snapshot eng_df_fail2).getD 1 default).name := by
  with_unfolding_all decide

/-! ## C8 — the RSI rebound activation condition -/

theorem ok_bind {ε α β : Type} (a : α) (k : α → Except ε β) :
    (Except.ok a : Except ε α) >>= k = k a := rfl

/-- C8 (amended): with at least two RSI values available, the RSI rebound
setup is active **iff** the previous RSI value was ≤ 30, the current value
is in (30, 45], and the weekly trend label is a moderate or strong uptrend
or sideways — i.e. the weekly trend is not bearish at all.  A *moderately*
bearish weekly trend also deactivates the setup, contrary to the claim's
"not strongly bearish" (see `c8_counterexample`). -/
theorem c8_rsi_rebound_iff (snapshot : MarketSnapshot) (df : EngineFrame) (vs : List ℚ)
    (hv : _lagged_values df "RSI_14" 3 = .ok vs) (h2 : 2 ≤ vs.length) :
    ∃ r, _setup_rsi_rebound snapshot df = .ok r ∧
      (r.active = true ↔ (vs.getD (vs.length - 2) 0 ≤ 30 ∧ 30 < vs.getLastD 0 ∧
        vs.getLastD 0 ≤ 45 ∧ (weekly_label_of snapshot = "alta moderada" ∨
          weekly_label_of snapshot = "alta forte" ∨
          weekly_label_of snapshot = "lateral"))) := by
  rw [_setup_rsi_rebound, hv, ok_bind, if_neg (not_lt.mpr h2)]
  refine ⟨_, rfl, ?_⟩
  simp only [Bool.and_eq_true, decide_eq_true_iff, and_assoc]

/-- Witness for C8: RSI history 25 then 40 with no weekly trend. -/
theorem c8_witness :
    ∃ r, _setup_rsi_rebound eng_snapshot eng_df_rsi = .ok r ∧
      (r.active = true ↔ (([25, 40] : List ℚ).getD ([25, 40].length - 2) 0 ≤ 30 ∧
        30 < ([25, 40] : List ℚ).getLastD 0 ∧ ([25, 40] : List ℚ).getLastD 0 ≤ 45 ∧
        (weekly_label_of eng_snapshot = "alta moderada" ∨
          weekly_label_of eng_snapshot = "alta forte" ∨
          weekly_label_of eng_snapshot = "lateral"))) :=
  c8_rsi_rebound_iff eng_snapshot eng_df_rsi [25, 40] (by with_unfolding_all decide)
    (by decide)

/-- C8 counterexample: RSI crosses up from 25 to 40, the weekly label is
`baixa moderada` — a *moderate* downtrend, not strongly bearish — and the
setup is nevertheless inactive. -/
theorem c8_counterexample :
    (_setup_rsi_rebound eng_snapshot_bearish eng_df_rsi).map SetupResult.active =
      .ok false ∧
    weekly_label_of eng_snapshot_bearish = "baixa moderada" ∧
    weekly_label_of eng_snapshot_bearish ≠ "baixa forte" ∧
    _lagged_values eng_df_rsi "RSI_14" 3 = .ok [25, 40] ∧
    (25 : ℚ) ≤ 30 ∧ (30 : ℚ) < 40 ∧ (40 : ℚ) ≤ 45 := by
  with_unfolding_all decide

/-! ## C9 — unparseable dates are dropped silently, not rejected -/

/-- C9 (amended): `_validate_input` fails fast only on missing required
columns.  Unparseable dates are coerced to `NaT` and silently dropped: a
frame whose required columns are all present but whose `Date` values are
all unparseable passes validation as an **empty** series with no error
(the original fail-fast claim is refuted by `c9_counterexample`). -/
theorem c9_unparseable_dates_dropped (df : RawFrame)
    (hcols : ∀ c ∈ REQUIRED_COLUMNS, c ∈ df.columns)
    (hdates : ∀ d ∈ df.dates, d = none) :
    _validate_input df = .ok [] := by
  have hmiss : REQUIRED_COLUMNS.filter (fun c => decide (c ∉ df.columns)) = [] := by
    rw [List.filter_eq_nil_iff]
    simpa using hcols
  have hdrop : df.dates.filterMap id = [] := by
    rw [List.filterMap_eq_nil_iff]
    exact hdates
  simp [_validate_input, hmiss, hdrop]
  exact hcols

/-- Witness for C9 at a frame with one unparseable date. -/
theorem c9_witness : _validate_input raw_frame_bad_dates = .ok [] :=
  c9_unparseable_dates_dropped raw_frame_bad_dates (by decide) (by decide)

/-- C9 counterexample: a non-empty frame with all required columns and
only unparseable dates passes validation with an empty result — no
descriptive error is raised and the whole series is silently dropped. -/
theorem c9_counterexample :
    _validate_input raw_frame_bad_dates2 = Except.ok [] ∧
    raw_frame_bad_dates2.dates ≠ [] := by
  decide

/-! ## C10 — shape of the evaluate_setups result list -/

theorem ema_cross_absent (s : MarketSnapshot) (df : EngineFrame)
    (short_col long_col : String)
    (h : df_column df short_col = none ∨ df_column df long_col = none) :
    _ema_cross s df short_col long_col = .ok [] := by
  rcases hs : df_column df short_col with _ | sc
  · cases hl : df_column df long_col
    · simp only [_ema_cross, hs, hl]
      rfl
    · simp only [_ema_cross, hs, hl]
      rfl
  · cases hl : df_column df long_col
    · simp only [_ema_cross, hs, hl]
      rfl
    · rcases h with h | h
      · exact absurd (hs ▸ h) (by simp)
      · exact absurd (hl ▸ h) (by simp)

/-- C10: `evaluate_setups` never raises and always returns at least two
results: the head is exactly one trend-following result (or one inactive
error stand-in), the second is exactly one RSI rebound result (or one
inactive error stand-in), and the tail consists of the EMA-crossover
results of the two fixed pairs, each omitted entirely when its required
EMA columns are absent. -/
theorem c10_evaluate_setups_shape (s : MarketSnapshot) (df : EngineFrame) :
    ∃ r1 r2 l3 l4,
      evaluate_setups s df = r1 :: r2 :: (l3 ++ l4) ∧
      ((∃ a, _setup_trend_following s df = .ok a ∧ r1 = a) ∨
        (∃ e, _setup_trend_following s df = .error e ∧ r1 = lambda_error_result e ∧
          r1.active = false)) ∧
      ((∃ a, _setup_rsi_rebound s df = .ok a ∧ r2 = a) ∨
        (∃ e, _setup_rsi_rebound s df = .error e ∧ r2 = lambda_error_result e ∧
          r2.active = false)) ∧
      (_ema_cross s df "EMA_9" "EMA_21" = .ok l3 ∨
        (∃ e, _ema_cross s df "EMA_9" "EMA_21" = .error e ∧
          l3 = [lambda_error_result e])) ∧
      (_ema_cross s df "EMA_21" "EMA_72" = .ok l4 ∨
        (∃ e, _ema_cross s df "EMA_21" "EMA_72" = .error e ∧
          l4 = [lambda_error_result e])) ∧
      ((df_column df "EMA_9" = none ∨ df_column df "EMA_21" = none) → l3 = []) ∧
      ((df_column df "EMA_21" = none ∨ df_column df "EMA_72" = none) → l4 = []) := by
  have H1 : ∃ r1, run_setup ((_setup_trend_following s df).map (fun r => [r])) = [r1] ∧
      ((∃ a, _setup_trend_following s df = .ok a ∧ r1 = a) ∨
        (∃ e, _setup_trend_following s df = .error e ∧ r1 = lambda_error_result e ∧
          r1.active = false)) := by
    cases h : _setup_trend_following s df with
    | ok a => exact ⟨a, by simp [run_setup, Except.map], Or.inl ⟨a, rfl, rfl⟩⟩
    | error e => exact ⟨lambda_error_result e, by simp [run_setup, Except.map],
        Or.inr ⟨e, rfl, rfl, rfl⟩⟩
  have H2 : ∃ r2, run_setup ((_setup_rsi_rebound s df).map (fun r => [r])) = [r2] ∧
      ((∃ a, _setup_rsi_rebound s df = .ok a ∧ r2 = a) ∨
        (∃ e, _setup_rsi_rebound s df = .error e ∧ r2 = lambda_error_result e ∧
          r2.active = false)) := by
    cases h : _setup_rsi_rebound s df with
    | ok a => exact ⟨a, by simp [run_setup, Except.map], Or.inl ⟨a, rfl, rfl⟩⟩
    | error e => exact ⟨lambda_error_result e, by simp [run_setup, Except.map],
        Or.inr ⟨e, rfl, rfl, rfl⟩⟩
  have H3 : ∃ l3, run_setup (_ema_cross s df "EMA_9" "EMA_21") = l3 ∧
      (_ema_cross s df "EMA_9" "EMA_21" = .ok l3 ∨
        (∃ e, _ema_cross s df "EMA_9" "EMA_21" = .error e ∧
          l3 = [lambda_error_result e])) ∧
      ((df_column df "EMA_9" = none ∨ df_column df "EMA_21" = none) → l3 = []) := by
    cases h : _ema_cross s df "EMA_9" "EMA_21" with
    | ok l => refine ⟨l, by simp [run_setup], Or.inl rfl, ?_⟩
              intro habs
              have h0 := ema_cross_absent s df "EMA_9" "EMA_21" habs
              rw [h] at h0
              simpa using h0
    | error e => refine ⟨[lambda_error_result e], by simp [run_setup], Or.inr ⟨e, rfl, rfl⟩, ?_⟩
                 intro habs
                 have h0 := ema_cross_absent s df "EMA_9" "EMA_21" habs
                 rw [h] at h0
                 exact absurd h0 (by simp)
  have H4 : ∃ l4, run_setup (_ema_cross s df "EMA_21" "EMA_72") = l4 ∧
      (_ema_cross s df "EMA_21" "EMA_72" = .ok l4 ∨
        (∃ e, _ema_cross s df "EMA_21" "EMA_72" = .error e ∧
          l4 = [lambda_error_result e])) ∧
      ((df_column df "EMA_21" = none ∨ df_column df "EMA_72" = none) → l4 = []) := by
    cases h : _ema_cross s df "EMA_21" "EMA_72" with
    | ok l => refine ⟨l, by simp [run_setup], Or.inl rfl, ?_⟩
              intro habs
              have h0 := ema_cross_absent s df "EMA_21" "EMA_72" habs
              rw [h] at h0
              simpa using h0
    | error e => refine ⟨[lambda_error_result e], by simp [run_setup], Or.inr ⟨e, rfl, rfl⟩, ?_⟩
                 intro habs
                 have h0 := ema_cross_absent s df "EMA_21" "EMA_72" habs
                 rw [h] at h0
                 exact absurd h0 (by simp)
  obtain ⟨r1, hr1, hp1⟩ := H1
  obtain ⟨r2, hr2, hp2⟩ := H2
  obtain ⟨l3, hr3, hp3, hz3⟩ := H3
  obtain ⟨l4, hr4, hp4, hz4⟩ := H4
  refine ⟨r1, r2, l3, l4, ?_, hp1, hp2, hp3, hp4, hz3, hz4⟩
  simp only [evaluate_setups, evaluate_setups_loop, hr1, hr2, hr3, hr4,
    List.append_nil, List.cons_append, List.nil_append]

end QuantFinance
